import Mathlib

/-!
Shallow embedding of the ECS core of the gamma-vk repository
(`src/ecs/entity.rs`, `src/ecs/sparse_set.rs`, `src/ecs/sparse_set_backend.rs`,
`src/ecs/world.rs`, `src/ecs/mod.rs`).

Machine integers (`u32`, `usize`) are modelled as `Nat`; the one place the
source relies on wrap-around (`u32::wrapping_add` in
`SparseSetBackend::create_entity`) is modelled with an explicit `% 2 ^ 32`.
Rust `Vec<T>` is modelled as `List T`: `v.get(i)` is `List.get?`, the
unguarded `v[i]` (which panics when out of range) is modelled either with
`List.getD` or, in the panic-instrumented variants below, with an explicit
`Option` whose `none` marks the panic.  `Vec::push`/`Vec::pop` make the
vector a stack; the backend's `free_list` stack is modelled with the list
head as the top of the stack.

Component values are a type parameter `α`; the `HashMap<TypeId, Box<dyn
ComponentStorage>>` registry is modelled as an association list from a
`Nat` type-identifier to a `SparseSet α`.
-/

namespace GammaVk

/-- `2 ^ 32`, the modulus of the `u32` generation counter. -/
def U32MOD : Nat := 2 ^ 32

/-- `Entity` from `src/ecs/entity.rs`: a dense index `id` and a
`generation` counter.  Equality compares both fields, as the derived
`PartialEq` does in Rust. -/
structure Entity where
  id : Nat
  generation : Nat
deriving DecidableEq, Repr

/-- `Entity::index` returns the id without the generation. -/
def Entity.index (e : Entity) : Nat := e.id

/-- The ECS error stub from `src/ecs/mod.rs` (`error_stub::GammaVkError`). -/
inductive GammaVkError where
  | EntityNotFound (e : Entity)
  | ComponentNotFound (e : Entity)
deriving DecidableEq, Repr

/-- `SparseSet<T>` from `src/ecs/sparse_set.rs`: a sparse array from entity
index to dense index, and parallel dense arrays of entities and
components. -/
structure SparseSet (α : Type) where
  sparse : List (Option Nat)
  entities : List Entity
  components : List α
deriving DecidableEq, Repr

/-- `Vec::swap i j`: exchange the elements at positions `i` and `j`;
unchanged if either index is out of range (Rust would panic there; the
panic-instrumented callers below check the bounds explicitly). -/
def listSwap {β : Type} (l : List β) (i j : Nat) : List β :=
  match l.get? i, l.get? j with
  | some a, some b => (l.set i b).set j a
  | _, _ => l

namespace SparseSet

variable {α : Type}

/-- `SparseSet::new`. -/
def new : SparseSet α := ⟨[], [], []⟩

/-- The "grow sparse array if needed" prelude of `SparseSet::insert`:
`Vec::resize(index + 1, None)` when `index >= sparse.len()`. -/
def growSparse (sp : List (Option Nat)) (index : Nat) : List (Option Nat) :=
  if sp.length ≤ index then
    sp ++ List.replicate (index + 1 - sp.length) none
  else sp

/-- `SparseSet::insert`: grow the sparse array to `index + 1` if needed;
if the slot already holds a dense index, overwrite the component and the
stored entity (updating the generation); otherwise append a new dense
entry and point the slot at it. -/
def insert (s : SparseSet α) (e : Entity) (c : α) : SparseSet α :=
  let index := e.id
  let sp := growSparse s.sparse index
  match sp.getD index none with
  | some dense_index =>
      { sparse := sp
        entities := s.entities.set dense_index e
        components := s.components.set dense_index c }
  | none =>
      let dense_index := s.components.length
      { sparse := sp.set index (some dense_index)
        entities := s.entities ++ [e]
        components := s.components ++ [c] }

/-- Panic-instrumented `SparseSet::get`: `none` marks a Rust
index-out-of-bounds panic at the unguarded `self.entities[dense_index]`
or `self.components[dense_index]`; `some r` means the call returns `r`.
The `self.sparse.get(index)` lookup itself is the checked `Vec::get`. -/
def getChecked (s : SparseSet α) (e : Entity) : Option (Option α) :=
  let index := e.id
  match s.sparse.get? index with
  | some (some dense_index) =>
      match s.entities.get? dense_index with
      | none => none
      | some ent =>
          if ent = e then
            match s.components.get? dense_index with
            | none => none
            | some c => some (some c)
          else some none
  | _ => some none

/-- `SparseSet::get` (total form; the panic case collapses to `none`,
which never arises under the structural invariant). -/
def get (s : SparseSet α) (e : Entity) : Option α :=
  (s.getChecked e).getD none

/-- Panic-instrumented `SparseSet::get_mut`; its body is the same lookup
as `get`, returning the addressed component. -/
def getMutChecked (s : SparseSet α) (e : Entity) : Option (Option α) :=
  let index := e.id
  match s.sparse.get? index with
  | some (some dense_index) =>
      match s.entities.get? dense_index with
      | none => none
      | some ent =>
          if ent = e then
            match s.components.get? dense_index with
            | none => none
            | some c => some (some c)
          else some none
  | _ => some none

/-- `SparseSet::get_mut` (total form). -/
def get_mut (s : SparseSet α) (e : Entity) : Option α :=
  (s.getMutChecked e).getD none

/-- Writing through the reference returned by `SparseSet::get_mut`:
when the lookup succeeds the addressed dense component is replaced. -/
def writeViaGetMut (s : SparseSet α) (e : Entity) (c : α) : SparseSet α :=
  match s.sparse.get? e.id with
  | some (some dense_index) =>
      match s.entities.get? dense_index with
      | some ent =>
          if ent = e then { s with components := s.components.set dense_index c }
          else s
      | none => s
  | _ => s

/-- Panic-instrumented `SparseSet::remove`: `none` marks a Rust panic
(the unguarded `self.entities[dense_index]`, the `len() - 1` underflow,
an out-of-range `Vec::swap`, or an out-of-range sparse write); `some (b, s2)`
means the call returns `b` leaving state `s2`.  The swap branch swaps the
dense pair at `dense_index` with the last element and repoints the moved
element's sparse slot; both branches then pop the dense arrays and clear
`sparse[index]`. -/
def removeChecked (s : SparseSet α) (e : Entity) : Option (Bool × SparseSet α) :=
  let index := e.id
  match s.sparse.get? index with
  | some (some dense_index) =>
      match s.entities.get? dense_index with
      | none => none
      | some ent =>
          if ent ≠ e then some (false, s)
          else if s.components.length = 0 then none
          else
            let last_index := s.components.length - 1
            let swapped : Option (List (Option Nat) × List Entity × List α) :=
              if dense_index = last_index then
                some (s.sparse, s.entities, s.components)
              else
                if dense_index < s.entities.length ∧ dense_index < s.components.length ∧
                    last_index < s.entities.length ∧ last_index < s.components.length then
                  let ents := listSwap s.entities dense_index last_index
                  let comps := listSwap s.components dense_index last_index
                  match ents.get? dense_index with
                  | none => none
                  | some moved =>
                      if moved.id < s.sparse.length then
                        some (s.sparse.set moved.id (some dense_index), ents, comps)
                      else none
                else none
            match swapped with
            | none => none
            | some (sp, ents, comps) =>
                if index < sp.length then
                  some (true, ⟨sp.set index none, ents.dropLast, comps.dropLast⟩)
                else none
  | _ => some (false, s)

/-- `SparseSet::remove` (total form; the panic case, impossible under the
structural invariant, collapses to `(false, s)`). -/
def remove (s : SparseSet α) (e : Entity) : Bool × SparseSet α :=
  (s.removeChecked e).getD (false, s)

/-- `SparseSet::iter`: the zip of the dense entity and component arrays. -/
def iter (s : SparseSet α) : List (Entity × α) :=
  s.entities.zip s.components

end SparseSet

/-- The sparse-set structural invariant (spec §3):
if `sparse[i] = Some d` then `entities[d].index = i`;
every dense position is pointed back to by the sparse slot of its entity;
and the dense arrays have equal length. -/
def SInv {α : Type} (s : SparseSet α) : Prop :=
  (∀ i d, s.sparse.get? i = some (some d) →
      ∃ e, s.entities.get? d = some e ∧ e.id = i) ∧
  (∀ d, d < s.components.length →
      ∃ e, s.entities.get? d = some e ∧ s.sparse.get? e.id = some (some d)) ∧
  s.entities.length = s.components.length

/-- `EntityMeta` from `src/ecs/sparse_set_backend.rs`. -/
structure EntityMeta where
  generation : Nat
  alive : Bool
deriving DecidableEq, Repr

/-- `SparseSetBackend` from `src/ecs/sparse_set_backend.rs`.  The
`HashMap<TypeId, Box<dyn ComponentStorage>>` of storages is modelled as an
association list keyed by a `Nat` type identifier, every storage holding
components of the model's value type `α`.  The `free_list` stack has its
top at the list head (`Vec::push`/`Vec::pop` act on the Vec's end). -/
structure SparseSetBackend (α : Type) where
  entities : List EntityMeta
  free_list : List Nat
  storages : List (Nat × SparseSet α)
deriving DecidableEq, Repr

/-- `HashMap::get` on the storages registry (`get_storage`). -/
def lookupStorage {α : Type} : List (Nat × SparseSet α) → Nat → Option (SparseSet α)
  | [], _ => none
  | (t, s) :: rest, tid => if t = tid then some s else lookupStorage rest tid

/-- `get_or_create_storage` followed by `SparseSet::insert`: insert `c`
for `e` into the storage keyed `tid`, materializing an empty sparse set
first when the key is absent. -/
def insertStorage {α : Type} : List (Nat × SparseSet α) → Nat → Entity → α →
    List (Nat × SparseSet α)
  | [], tid, e, c => [(tid, SparseSet.new.insert e c)]
  | (t, s) :: rest, tid, e, c =>
      if t = tid then (t, s.insert e c) :: rest
      else (t, s) :: insertStorage rest tid e c

/-- `get_storage_mut` followed by `SparseSet::remove` on the storage keyed
`tid`; a no-op when the key is absent. -/
def removeStorage {α : Type} : List (Nat × SparseSet α) → Nat → Entity →
    List (Nat × SparseSet α)
  | [], _, _ => []
  | (t, s) :: rest, tid, e =>
      if t = tid then (t, (s.remove e).2) :: rest
      else (t, s) :: removeStorage rest tid e

namespace SparseSetBackend

variable {α : Type}

/-- `SparseSetBackend::default`. -/
def new : SparseSetBackend α := ⟨[], [], []⟩

/-- `SparseSetBackend::create_entity`: pop a free index and reuse it with
the slot's generation incremented by `u32::wrapping_add(1)`, or append a
fresh slot at generation 0.  The method mutates `self` and returns the
entity; here it returns the entity with the new state. -/
def create_entity (b : SparseSetBackend α) : Entity × SparseSetBackend α :=
  match b.free_list with
  | id :: rest =>
      let meta := b.entities.getD id ⟨0, false⟩
      let g := (meta.generation + 1) % U32MOD
      (⟨id, g⟩,
       { b with entities := b.entities.set id ⟨g, true⟩, free_list := rest })
  | [] =>
      let id := b.entities.length
      (⟨id, 0⟩, { b with entities := b.entities ++ [⟨0, true⟩] })

/-- `SparseSetBackend::destroy_entity`: check existence and generation,
mark the slot dead, `clear_for_entity` (= `SparseSet::remove`) on every
storage, push the index on the free list.  Models `&mut self ->
Result<(), _>` as a pair of the result and the post state (the error
paths return before mutating). -/
def destroy_entity (b : SparseSetBackend α) (e : Entity) :
    Except GammaVkError Unit × SparseSetBackend α :=
  let index := e.id
  if b.entities.length ≤ index then
    (.error (.EntityNotFound e), b)
  else
    let meta := b.entities.getD index ⟨0, false⟩
    if meta.alive = false ∨ meta.generation ≠ e.generation then
      (.error (.EntityNotFound e), b)
    else
      (.ok (),
       { entities := b.entities.set index { meta with alive := false }
         free_list := index :: b.free_list
         storages := b.storages.map fun p => (p.1, (p.2.remove e).2) })

/-- `SparseSetBackend::is_alive`. -/
def is_alive (b : SparseSetBackend α) (e : Entity) : Bool :=
  match b.entities.get? e.id with
  | some meta => meta.alive && meta.generation == e.generation
  | none => false

/-- Panic-instrumented `SparseSetBackend::is_alive`: the source body is
built only from the checked `Vec::get`, `Option::map` and
`Option::unwrap_or`, so no arm of the translation marks a panic. -/
def is_aliveChecked (b : SparseSetBackend α) (e : Entity) : Option Bool :=
  match b.entities.get? e.id with
  | some meta => some (meta.alive && meta.generation == e.generation)
  | none => some false

/-- `SparseSetBackend::add_component`: aliveness check first, then
`get_or_create_storage::<C>().insert(entity, component)`. -/
def add_component (b : SparseSetBackend α) (tid : Nat) (e : Entity) (c : α) :
    Except GammaVkError Unit × SparseSetBackend α :=
  if b.is_alive e = false then
    (.error (.EntityNotFound e), b)
  else
    (.ok (), { b with storages := insertStorage b.storages tid e c })

/-- `SparseSetBackend::get_component`. -/
def get_component (b : SparseSetBackend α) (tid : Nat) (e : Entity) : Option α :=
  if b.is_alive e = false then none
  else (lookupStorage b.storages tid).bind fun s => s.get e

/-- `SparseSetBackend::get_component_mut`. -/
def get_component_mut (b : SparseSetBackend α) (tid : Nat) (e : Entity) : Option α :=
  if b.is_alive e = false then none
  else (lookupStorage b.storages tid).bind fun s => s.get_mut e

/-- `SparseSetBackend::remove_component`: aliveness check first, then
remove from the storage for `tid` if that storage exists. -/
def remove_component (b : SparseSetBackend α) (tid : Nat) (e : Entity) :
    Except GammaVkError Unit × SparseSetBackend α :=
  if b.is_alive e = false then
    (.error (.EntityNotFound e), b)
  else
    match lookupStorage b.storages tid with
    | some _ => (.ok (), { b with storages := removeStorage b.storages tid e })
    | none => (.ok (), b)

/-- `SparseSetBackend::query_component`: materialize the dense iteration
of the storage for `tid`, or the empty sequence when unregistered. -/
def query_component (b : SparseSetBackend α) (tid : Nat) : List (Entity × α) :=
  match lookupStorage b.storages tid with
  | some s => s.iter
  | none => []

end SparseSetBackend

/-- The registry invariant: every registered storage satisfies the
sparse-set structural invariant. -/
def SparseSetBackend.StoragesInv {α : Type} (b : SparseSetBackend α) : Prop :=
  ∀ tid s, lookupStorage b.storages tid = some s → SInv s

/-- `World` from `src/ecs/world.rs`, over the sparse-set backend. -/
structure World (α : Type) where
  backend : SparseSetBackend α
deriving DecidableEq, Repr

namespace World

variable {α : Type}

/-- `World::new`. -/
def new : World α := ⟨SparseSetBackend.new⟩

/-- `World::destroy`. -/
def destroy (w : World α) (e : Entity) : Except GammaVkError Unit × World α :=
  let r := w.backend.destroy_entity e
  (r.1, ⟨r.2⟩)

/-- `World::is_alive`. -/
def is_alive (w : World α) (e : Entity) : Bool :=
  w.backend.is_alive e

/-- `World::get`. -/
def get (w : World α) (tid : Nat) (e : Entity) : Option α :=
  w.backend.get_component tid e

/-- `World::add_component`. -/
def add_component (w : World α) (tid : Nat) (e : Entity) (c : α) :
    Except GammaVkError Unit × World α :=
  let r := w.backend.add_component tid e c
  (r.1, ⟨r.2⟩)

/-- `World::query`. -/
def query (w : World α) (tid : Nat) : List (Entity × α) :=
  w.backend.query_component tid

/-- `World::query2`: iterate the `A` storage and keep the entities for
which `get::<B>` succeeds. -/
def query2 (w : World α) (ta tb : Nat) : List (Entity × (α × α)) :=
  (w.query ta).filterMap fun p =>
    (w.get tb p.1).map fun c2 => (p.1, (p.2, c2))

end World

/-- One Rust-level operation on a `SparseSet` (spec §4.2): `insert`,
`remove`, `get`, `get_mut` (including a write through the returned
reference), or `iter` (the reads leave the structure unchanged). -/
inductive SSOp (α : Type) where
  | insertOp (e : Entity) (c : α)
  | removeOp (e : Entity)
  | getOp (e : Entity)
  | getMutOp (e : Entity) (c : α)
  | iterOp

/-- Apply one operation to a sparse set. -/
def SSOp.apply {α : Type} (s : SparseSet α) : SSOp α → SparseSet α
  | .insertOp e c => s.insert e c
  | .removeOp e => (s.remove e).2
  | .getOp _ => s
  | .getMutOp e c => s.writeViaGetMut e c
  | .iterOp => s

/-- One entity slot, dead at generation `g`, with its index on the free
list and no storages: the backend state reached by destroying the sole
entity of a fresh backend and then repeatedly reusing the slot. -/
def deadState (g : Nat) : SparseSetBackend Nat := ⟨[⟨g, false⟩], [0], []⟩

/-- One `create_entity` immediately followed by `destroy_entity` of the
entity it returned. -/
def cycleCreateDestroy (b : SparseSetBackend Nat) : SparseSetBackend Nat :=
  ((b.create_entity).2.destroy_entity (b.create_entity).1).2

/-- Concrete storage holding `42` for entity `⟨1, 7⟩`. -/
def ssEx : SparseSet Nat := ⟨[none, some 0], [⟨1, 7⟩], [42]⟩

/-- Concrete storage holding `42` for entity `⟨0, 7⟩`. -/
def ssEx0 : SparseSet Nat := ⟨[some 0], [⟨0, 7⟩], [42]⟩

/-- Concrete backend: one alive entity `⟨0, 7⟩` carrying component `42`
under type id `0`. -/
def bEx : SparseSetBackend Nat := ⟨[⟨7, true⟩], [], [(0, ssEx0)]⟩

/-- Concrete world over `bEx`. -/
def wEx : World Nat := ⟨bEx⟩

/-- Concrete backend with one dead slot at generation 5 on the free
list. -/
def bDead : SparseSetBackend Nat := ⟨[⟨5, false⟩], [0], []⟩

section ListFacts

variable {β : Type}

theorem get?_set_self (l : List β) (i : Nat) (a : β) (h : i < l.length) :
    (l.set i a).get? i = some a := by
  simp [List.get?_eq_getElem?, List.getElem?_set_eq_of_lt a h]

theorem get?_set_ne (l : List β) (i j : Nat) (a : β) (h : i ≠ j) :
    (l.set i a).get? j = l.get? j := by
  simp [List.get?_eq_getElem?, List.getElem?_set_ne h]

theorem get?_lt_length {l : List β} {i : Nat} {a : β} (h : l.get? i = some a) :
    i < l.length := by
  rcases List.get?_eq_some.mp h with ⟨hlt, _⟩; exact hlt

theorem get?_of_length_le (l : List β) {i : Nat} (h : l.length ≤ i) :
    l.get? i = none := List.get?_eq_none.mpr h

theorem get?_append_l (l1 l2 : List β) {i : Nat} (h : i < l1.length) :
    (l1 ++ l2).get? i = l1.get? i := by
  simp [List.get?_eq_getElem?, List.getElem?_append_left h]

theorem get?_append_r (l1 l2 : List β) {i : Nat} (h : l1.length ≤ i) :
    (l1 ++ l2).get? i = l2.get? (i - l1.length) := by
  simp [List.get?_eq_getElem?, List.getElem?_append_right h]

theorem get?_concat_self (l : List β) (a : β) :
    (l ++ [a]).get? l.length = some a := by
  rw [get?_append_r l [a] (Nat.le_refl _), Nat.sub_self]; rfl

theorem get?_replicate_lt (n i : Nat) (a : β) (h : i < n) :
    (List.replicate n a).get? i = some a := by
  simp [List.get?_eq_getElem?, List.getElem?_replicate, h]

theorem get?_dropLast (l : List β) {i : Nat} (h : i + 1 < l.length) :
    l.dropLast.get? i = l.get? i := by
  rw [List.dropLast_eq_take, List.get?_take (by omega)]

theorem get?_dropLast_none (l : List β) {i : Nat} (h : l.length ≤ i + 1) :
    l.dropLast.get? i = none := by
  apply get?_of_length_le
  rw [List.length_dropLast]; omega

theorem length_listSwap (l : List β) (i j : Nat) :
    (listSwap l i j).length = l.length := by
  unfold listSwap
  cases h1 : l.get? i <;> cases h2 : l.get? j <;> simp

theorem get?_listSwap_fst (l : List β) {i j : Nat}
    (h1 : i < l.length) (h2 : j < l.length) :
    (listSwap l i j).get? i = l.get? j := by
  rcases List.get?_eq_some.mpr ⟨h1, rfl⟩ with ha
  rcases List.get?_eq_some.mpr ⟨h2, rfl⟩ with hb
  unfold listSwap
  rw [ha, hb]
  rcases eq_or_ne i j with rfl | hne
  · rw [get?_set_self _ _ _ (by simpa using h1)]
  · rw [get?_set_ne _ _ _ _ (Ne.symm hne), get?_set_self _ _ _ h1]

theorem get?_listSwap_snd (l : List β) {i j : Nat}
    (h1 : i < l.length) (h2 : j < l.length) :
    (listSwap l i j).get? j = l.get? i := by
  rcases List.get?_eq_some.mpr ⟨h1, rfl⟩ with ha
  rcases List.get?_eq_some.mpr ⟨h2, rfl⟩ with hb
  unfold listSwap
  rw [ha, hb, get?_set_self _ _ _ (by simpa using h2)]

theorem get?_listSwap_other (l : List β) {i j k : Nat}
    (hi : k ≠ i) (hj : k ≠ j) :
    (listSwap l i j).get? k = l.get? k := by
  unfold listSwap
  cases h1 : l.get? i <;> cases h2 : l.get? j <;> try rfl
  rw [get?_set_ne _ _ _ _ (Ne.symm hj), get?_set_ne _ _ _ _ (Ne.symm hi)]

end ListFacts

namespace SparseSet

theorem lt_length_growSparse (sp : List (Option Nat)) (index : Nat) :
    index < (growSparse sp index).length := by
  unfold growSparse
  split
  · rename_i h
    simp only [List.length_append, List.length_replicate]
    omega
  · omega

theorem growSparse_get?_lt (sp : List (Option Nat)) (index : Nat) {i : Nat}
    (h : i < sp.length) : (growSparse sp index).get? i = sp.get? i := by
  unfold growSparse
  split
  · exact get?_append_l _ _ h
  · rfl

theorem growSparse_get?_some_iff (sp : List (Option Nat)) (index i d : Nat) :
    (growSparse sp index).get? i = some (some d) ↔ sp.get? i = some (some d) := by
  constructor
  · intro h
    by_cases hi : i < sp.length
    · rwa [growSparse_get?_lt sp index hi] at h
    · exfalso
      unfold growSparse at h
      split at h
      · rcases Nat.lt_or_ge i (sp.length + (index + 1 - sp.length)) with hlt | hge
        · rw [get?_append_r _ _ (by omega)] at h
          rw [get?_replicate_lt _ _ _ (by omega)] at h
          exact Option.noConfusion (Option.some.inj h)
        · rw [get?_of_length_le _ (by
            simp only [List.length_append, List.length_replicate]; omega)] at h
          exact Option.noConfusion h
      · rw [get?_of_length_le sp (by omega)] at h
        exact Option.noConfusion h
  · intro h
    rwa [growSparse_get?_lt sp index (get?_lt_length h)]

variable {α : Type}

/-- Equation lemma for the overwrite branch of `insert`. -/
theorem insert_eq_update {s : SparseSet α} {e : Entity} {c : α} {d : Nat}
    (hd : (growSparse s.sparse e.id).getD e.id none = some d) :
    s.insert e c =
      ⟨growSparse s.sparse e.id, s.entities.set d e, s.components.set d c⟩ := by
  unfold insert
  simp only [hd]

/-- Equation lemma for the append branch of `insert`. -/
theorem insert_eq_append {s : SparseSet α} {e : Entity} {c : α}
    (hd : (growSparse s.sparse e.id).getD e.id none = none) :
    s.insert e c =
      ⟨(growSparse s.sparse e.id).set e.id (some s.components.length),
       s.entities ++ [e], s.components ++ [c]⟩ := by
  unfold insert
  simp only [hd]

theorem sInv_new : SInv (new : SparseSet α) := by
  refine ⟨?_, ?_, rfl⟩
  · intro i d h
    simp [new] at h
  · intro d h
    simp [new] at h

theorem sInv_insert {s : SparseSet α} (hInv : SInv s) (e : Entity) (c : α) :
    SInv (s.insert e c) := by
  obtain ⟨h1, h2, h3⟩ := hInv
  have hlt := lt_length_growSparse s.sparse e.id
  rcases hd : (growSparse s.sparse e.id).getD e.id none with _ | d
  · -- new dense entry appended
    rw [insert_eq_append hd]
    have hsome : (growSparse s.sparse e.id).get? e.id = some none := by
      rcases h : (growSparse s.sparse e.id).get? e.id with _ | o
      · exact absurd (List.get?_eq_none.mp h) (by omega)
      · have h2o : o = none := by
          have hh : ((growSparse s.sparse e.id).get? e.id).getD none = none := hd
          rw [h] at hh
          simpa using hh
        rw [h2o]
    have hnotset : ∀ d2, ¬ s.sparse.get? e.id = some (some d2) := by
      intro d2 hcontra
      have := (growSparse_get?_some_iff s.sparse e.id e.id d2).mpr hcontra
      rw [hsome] at this
      exact Option.noConfusion (Option.some.inj this)
    refine ⟨?_, ?_, by simp [h3]⟩
    · intro i d2 hsp
      by_cases hi : i = e.id
      · subst hi
        rw [get?_set_self _ _ _ (lt_length_growSparse s.sparse e.id)] at hsp
        have hd2 : d2 = s.components.length := by
          have := Option.some.inj (Option.some.inj hsp)
          omega
        subst hd2
        refine ⟨e, ?_, rfl⟩
        rw [← h3, get?_concat_self]
      · rw [get?_set_ne _ _ _ _ (fun hcontra => hi hcontra.symm)] at hsp
        rw [growSparse_get?_some_iff] at hsp
        obtain ⟨e2, he2, hid⟩ := h1 i d2 hsp
        refine ⟨e2, ?_, hid⟩
        rw [get?_append_l _ _ (get?_lt_length he2)]
        exact he2
    · intro d2 hlt
      simp only [List.length_append, List.length_singleton] at hlt
      rcases Nat.lt_or_ge d2 s.components.length with hlt2 | hge
      · obtain ⟨e2, he2, hsp2⟩ := h2 d2 hlt2
        refine ⟨e2, ?_, ?_⟩
        · rw [get?_append_l _ _ (get?_lt_length he2)]
          exact he2
        · have hne : e2.id ≠ e.id := fun hcontra =>
            hnotset d2 (hcontra ▸ hsp2)
          rw [get?_set_ne _ _ _ _ (fun hcontra => hne hcontra.symm)]
          rw [growSparse_get?_some_iff]
          exact hsp2
      · have hd2 : d2 = s.components.length := by omega
        subst hd2
        refine ⟨e, ?_, ?_⟩
        · rw [← h3, get?_concat_self]
        · rw [get?_set_self _ _ _ (lt_length_growSparse s.sparse e.id)]
  · -- overwrite existing dense entry
    rw [insert_eq_update hd]
    have hsp : s.sparse.get? e.id = some (some d) := by
      rw [← growSparse_get?_some_iff s.sparse e.id]
      rcases h : (growSparse s.sparse e.id).get? e.id with _ | o
      · exact absurd (List.get?_eq_none.mp h) (by omega)
      · have ho : o = some d := by
          have hh : ((growSparse s.sparse e.id).get? e.id).getD none = some d := hd
          rw [h] at hh
          simpa using hh
        rw [ho]
    obtain ⟨e0, he0, hid0⟩ := h1 e.id d hsp
    refine ⟨?_, ?_, by simp [h3]⟩
    · intro i d2 hsp2
      rw [growSparse_get?_some_iff] at hsp2
      obtain ⟨e2, he2, hid2⟩ := h1 i d2 hsp2
      by_cases hdd : d2 = d
      · subst hdd
        refine ⟨e, ?_, ?_⟩
        · rw [get?_set_self _ _ _ (get?_lt_length he0)]
        · have : e2 = e0 := by rw [he2] at he0; exact Option.some.inj he0
          subst this
          omega
      · refine ⟨e2, ?_, hid2⟩
        rw [get?_set_ne _ _ _ _ (fun hcontra => hdd hcontra.symm)]
        exact he2
    · intro d2 hlt
      rw [List.length_set] at hlt
      obtain ⟨e2, he2, hsp2⟩ := h2 d2 hlt
      by_cases hdd : d2 = d
      · subst hdd
        refine ⟨e, ?_, ?_⟩
        · rw [get?_set_self _ _ _ (get?_lt_length he0)]
        · rw [growSparse_get?_some_iff]
          exact hsp
      · refine ⟨e2, ?_, ?_⟩
        · rw [get?_set_ne _ _ _ _ (fun hcontra => hdd hcontra.symm)]
          exact he2
        · rw [growSparse_get?_some_iff]
          exact hsp2

theorem get_mut_eq_get (s : SparseSet α) (e : Entity) : s.get_mut e = s.get e := rfl

theorem getD_eq_get?_getD (l : List (Option Nat)) (i : Nat) (dft : Option Nat) :
    l.getD i dft = (l.get? i).getD dft := rfl

/-- Characterization of a successful `get` under the structural invariant:
the component is returned iff it is stored in a dense slot whose entity is
exactly `e`. -/
theorem get_eq_some_iff {s : SparseSet α} (hInv : SInv s) (e : Entity) (c : α) :
    s.get e = some c ↔
      ∃ d, s.sparse.get? e.id = some (some d) ∧
        s.entities.get? d = some e ∧ s.components.get? d = some c := by
  obtain ⟨h1, h2, h3⟩ := hInv
  unfold get getChecked
  rcases hsp : s.sparse.get? e.id with _ | o
  · simp only [hsp]
    simp [hsp]
  · cases o with
    | none =>
      simp only [hsp]
      simp [hsp]
    | some d0 =>
      obtain ⟨ent, hent, hid⟩ := h1 e.id d0 hsp
      by_cases heq : ent = e
      · subst heq
        have hd0 : d0 < s.components.length := by
          have := get?_lt_length hent; omega
        rcases hc : s.components.get? d0 with _ | c0
        · exact absurd (List.get?_eq_none.mp hc) (by omega)
        · simp only [hsp, hent, hc, if_pos rfl]
          constructor
          · intro h
            have hcc : c0 = c := by simpa using h
            subst hcc
            exact ⟨d0, rfl, hent, hc⟩
          · rintro ⟨d, hd, he, hcc⟩
            have hdd : d0 = d := by simpa using hd
            subst hdd
            rw [hc] at hcc
            have : c0 = c := by simpa using hcc
            simp [this]
      · simp only [hsp, hent, if_neg heq]
        constructor
        · intro h
          exact absurd (by simpa using h) (fun hcontra => hcontra)
        · rintro ⟨d, hd, he, -⟩
          have hdd : d0 = d := by simpa using hd
          subst hdd
          rw [hent] at he
          exact absurd (Option.some.inj he) heq

/-- Characterization of an absent `get` under the structural invariant:
the sparse slot is unset (or out of range), or the stored dense entity
differs from `e` (a stale generation). -/
theorem get_eq_none_iff {s : SparseSet α} (hInv : SInv s) (e : Entity) :
    s.get e = none ↔
      (s.sparse.getD e.id none = none ∨
       ∃ d ent, s.sparse.get? e.id = some (some d) ∧
         s.entities.get? d = some ent ∧ ent ≠ e) := by
  obtain ⟨h1, h2, h3⟩ := hInv
  unfold get getChecked
  rw [getD_eq_get?_getD]
  rcases hsp : s.sparse.get? e.id with _ | o
  · simp only [hsp]
    simp
  · cases o with
    | none =>
      simp only [hsp]
      simp
    | some d0 =>
      obtain ⟨ent, hent, hid⟩ := h1 e.id d0 hsp
      by_cases heq : ent = e
      · subst heq
        have hd0 : d0 < s.components.length := by
          have := get?_lt_length hent; omega
        rcases hc : s.components.get? d0 with _ | c0
        · exact absurd (List.get?_eq_none.mp hc) (by omega)
        · simp only [hsp, hent, hc, if_pos rfl]
          constructor
          · intro h
            exact absurd (by simpa using h) (fun hcontra => hcontra)
          · rintro (habs | ⟨d, ent2, hd, he2, hne⟩)
            · simp at habs
            · have hdd : d0 = d := by simpa using hd
              subst hdd
              rw [hent] at he2
              exact absurd (Option.some.inj he2).symm hne
      · simp only [hsp, hent, if_neg heq]
        constructor
        · intro _
          right
          exact ⟨d0, ent, rfl, hent, heq⟩
        · intro _
          simp

/-- Equation: removing when the sparse slot is out of range fails. -/
theorem remove_eq_none_slot {s : SparseSet α} {e : Entity}
    (h : s.sparse.get? e.id = none) : s.remove e = (false, s) := by
  unfold remove removeChecked
  simp only [h, Option.getD_some]

/-- Equation: removing when the sparse slot is unset fails. -/
theorem remove_eq_unset_slot {s : SparseSet α} {e : Entity}
    (h : s.sparse.get? e.id = some none) : s.remove e = (false, s) := by
  unfold remove removeChecked
  simp only [h, Option.getD_some]

/-- Equation: removing with a mismatched stored entity (stale generation)
fails without mutation. -/
theorem remove_eq_stale {s : SparseSet α} {e ent : Entity} {d : Nat}
    (hsp : s.sparse.get? e.id = some (some d))
    (hent : s.entities.get? d = some ent)
    (hne : ent ≠ e) : s.remove e = (false, s) := by
  unfold remove removeChecked
  simp only [hsp, hent, if_pos hne, Option.getD_some]

/-- Equation: removing the entity stored at the last dense position pops
the dense arrays and clears the sparse slot. -/
theorem remove_eq_last {s : SparseSet α} {e : Entity} {d : Nat}
    (hInv : SInv s)
    (hsp : s.sparse.get? e.id = some (some d))
    (hent : s.entities.get? d = some e)
    (hlast : d = s.components.length - 1) :
    s.remove e =
      (true, ⟨s.sparse.set e.id none, s.entities.dropLast, s.components.dropLast⟩) := by
  obtain ⟨h1, h2, h3⟩ := hInv
  have hdlen : d < s.entities.length := get?_lt_length hent
  have hzero : ¬ s.components.length = 0 := by omega
  have hidx : e.id < s.sparse.length := get?_lt_length hsp
  unfold remove removeChecked
  simp only [hsp, hent, if_neg (show ¬ e ≠ e by simp), if_neg hzero, if_pos hlast,
    if_pos hidx, Option.getD_some]

/-- Equation: removing an entity stored at a non-last dense position
swap-removes it with the last dense pair, repointing the moved entity's
sparse slot before clearing `e`'s. -/
theorem remove_eq_swap {s : SparseSet α} {e : Entity} {d : Nat}
    (hInv : SInv s)
    (hsp : s.sparse.get? e.id = some (some d))
    (hent : s.entities.get? d = some e)
    (hnotlast : ¬ d = s.components.length - 1) :
    ∃ me, s.entities.get? (s.components.length - 1) = some me ∧
      s.sparse.get? me.id = some (some (s.components.length - 1)) ∧
      s.remove e =
        (true,
         ⟨(s.sparse.set me.id (some d)).set e.id none,
          (listSwap s.entities d (s.components.length - 1)).dropLast,
          (listSwap s.components d (s.components.length - 1)).dropLast⟩) := by
  obtain ⟨h1, h2, h3⟩ := hInv
  have hdlen : d < s.entities.length := get?_lt_length hent
  have hzero : ¬ s.components.length = 0 := by omega
  have hidx : e.id < s.sparse.length := get?_lt_length hsp
  have hlastlt : s.components.length - 1 < s.components.length := by omega
  obtain ⟨me, hme, hmesp⟩ := h2 (s.components.length - 1) hlastlt
  refine ⟨me, hme, hmesp, ?_⟩
  have hmeidx : me.id < s.sparse.length := get?_lt_length hmesp
  have hswapd : (listSwap s.entities d (s.components.length - 1)).get? d = some me := by
    rw [get?_listSwap_fst _ hdlen (by omega)]
    exact hme
  unfold remove removeChecked
  simp only [hsp, hent, if_neg (show ¬ e ≠ e by simp), if_neg hzero, if_neg hnotlast,
    if_pos (show d < s.entities.length ∧ d < s.components.length ∧
      s.components.length - 1 < s.entities.length ∧
      s.components.length - 1 < s.components.length from
      ⟨hdlen, by omega, by omega, by omega⟩),
    hswapd, if_pos hmeidx, List.length_set, if_pos hidx, Option.getD_some]

/-- Full characterization of a successful removal: the result is `true`,
the sparse slot of `e` is cleared, the dense arrays shrink by one, `e` no
longer occurs in the dense entities, the structural invariant is
preserved, and every other stored entry keeps its component. -/
theorem remove_success {s : SparseSet α} {e : Entity} {d : Nat}
    (hInv : SInv s)
    (hsp : s.sparse.get? e.id = some (some d))
    (hent : s.entities.get? d = some e) :
    ∃ s2, s.remove e = (true, s2) ∧
      s2.sparse.get? e.id = some none ∧
      s2.entities.length + 1 = s.entities.length ∧
      s2.components.length + 1 = s.components.length ∧
      (∀ d2 e2, s2.entities.get? d2 = some e2 → e2 ≠ e) ∧
      SInv s2 ∧
      (∀ e2 c, e2 ≠ e → s.get e2 = some c → s2.get e2 = some c) := by
  have h1 := hInv.1
  have h2 := hInv.2.1
  have h3 := hInv.2.2
  have hdlen : d < s.entities.length := get?_lt_length hent
  have hidx : e.id < s.sparse.length := get?_lt_length hsp
  by_cases hlast : d = s.components.length - 1
  · -- case A: the removed entry is the last dense pair
    have heq := remove_eq_last hInv hsp hent hlast
    have hInv2 : SInv (⟨s.sparse.set e.id none, s.entities.dropLast,
        s.components.dropLast⟩ : SparseSet α) := by
      refine ⟨?_, ?_, by simp [h3]⟩
      · intro i d2 h
        by_cases hi : i = e.id
        · subst hi
          rw [get?_set_self _ _ _ hidx] at h
          exact absurd (Option.some.inj h) (by simp)
        · rw [get?_set_ne _ _ _ _ (Ne.symm hi)] at h
          obtain ⟨e2, he2, hid2⟩ := h1 i d2 h
          have hd2ne : d2 ≠ d := by
            intro hc
            subst hc
            rw [hent] at he2
            have : e2 = e := (Option.some.inj he2).symm
            subst this
            exact hi hid2.symm
          have hd2lt : d2 < s.entities.length := get?_lt_length he2
          refine ⟨e2, ?_, hid2⟩
          rw [get?_dropLast _ (by omega)]
          exact he2
      · intro d2 hlt
        rw [List.length_dropLast] at hlt
        obtain ⟨e2, he2, hsp2⟩ := h2 d2 (by omega)
        have he2ne : e2.id ≠ e.id := by
          intro hc
          rw [hc, hsp] at hsp2
          have : d = d2 := by simpa using hsp2
          omega
        refine ⟨e2, ?_, ?_⟩
        · rw [get?_dropLast _ (by omega)]
          exact he2
        · rw [get?_set_ne _ _ _ _ (Ne.symm he2ne)]
          exact hsp2
    have hnotmem : ∀ d2 e2, s.entities.dropLast.get? d2 = some e2 → e2 ≠ e := by
      intro d2 e2 h hcontra
      subst hcontra
      have hd2 : d2 < s.entities.length - 1 := by
        have := get?_lt_length h
        rwa [List.length_dropLast] at this
      rw [get?_dropLast _ (by omega)] at h
      obtain ⟨e3, he3, hsp3⟩ := h2 d2 (by omega)
      rw [h] at he3
      have : e3 = e2 := (Option.some.inj he3).symm
      subst this
      rw [hsp] at hsp3
      have : d = d2 := by simpa using hsp3
      omega
    have hpres : ∀ e2 c, e2 ≠ e → s.get e2 = some c →
        (⟨s.sparse.set e.id none, s.entities.dropLast,
          s.components.dropLast⟩ : SparseSet α).get e2 = some c := by
      intro e2 c hne hget
      obtain ⟨d1, hsp1, hent1, hc1⟩ := (get_eq_some_iff hInv e2 c).mp hget
      have hd1d : d1 ≠ d := by
        intro hc
        subst hc
        rw [hent] at hent1
        exact hne (Option.some.inj hent1).symm
      have hd1lt : d1 < s.entities.length := get?_lt_length hent1
      have hidne : e2.id ≠ e.id := by
        intro hc
        rw [hc, hsp] at hsp1
        have : d = d1 := by simpa using hsp1
        exact hd1d this.symm
      refine (get_eq_some_iff hInv2 e2 c).mpr ⟨d1, ?_, ?_, ?_⟩
      · show (s.sparse.set e.id none).get? e2.id = some (some d1)
        rw [get?_set_ne _ _ _ _ (Ne.symm hidne)]
        exact hsp1
      · show s.entities.dropLast.get? d1 = some e2
        rw [get?_dropLast _ (by omega)]
        exact hent1
      · show s.components.dropLast.get? d1 = some c
        rw [get?_dropLast _ (by omega)]
        exact hc1
    exact ⟨_, heq, get?_set_self _ _ _ hidx,
      by rw [List.length_dropLast]; omega,
      by rw [List.length_dropLast]; omega,
      hnotmem, hInv2, hpres⟩
  · -- case B: swap with the last dense pair
    obtain ⟨me, hme, hmesp, heq⟩ := remove_eq_swap hInv hsp hent hlast
    have hmeidx : me.id < s.sparse.length := get?_lt_length hmesp
    have hmene : me.id ≠ e.id := by
      intro hc
      rw [hc, hsp] at hmesp
      have : d = s.components.length - 1 := by simpa using hmesp
      exact hlast this
    have hmeE : me ≠ e := fun hc => hmene (by rw [hc])
    have hswapE_d :
        (listSwap s.entities d (s.components.length - 1)).get? d = some me := by
      rw [get?_listSwap_fst _ hdlen (by omega)]
      exact hme
    have hswapC_d :
        (listSwap s.components d (s.components.length - 1)).get? d =
          s.components.get? (s.components.length - 1) :=
      get?_listSwap_fst _ (by omega) (by omega)
    have hInv2 : SInv (⟨(s.sparse.set me.id (some d)).set e.id none,
        (listSwap s.entities d (s.components.length - 1)).dropLast,
        (listSwap s.components d (s.components.length - 1)).dropLast⟩ :
          SparseSet α) := by
      refine ⟨?_, ?_, by simp [length_listSwap, h3]⟩
      · intro i d2 h
        by_cases hie : i = e.id
        · subst hie
          rw [get?_set_self _ _ _ (by rw [List.length_set]; exact hidx)] at h
          exact absurd (Option.some.inj h) (by simp)
        · rw [get?_set_ne _ _ _ _ (Ne.symm hie)] at h
          by_cases him : i = me.id
          · subst him
            rw [get?_set_self _ _ _ hmeidx] at h
            have hd2d : d = d2 := by simpa using h
            subst hd2d
            refine ⟨me, ?_, rfl⟩
            rw [get?_dropLast _ (by rw [length_listSwap]; omega)]
            exact hswapE_d
          · rw [get?_set_ne _ _ _ _ (Ne.symm him)] at h
            obtain ⟨e2, he2, hid2⟩ := h1 i d2 h
            have hd2d : d2 ≠ d := by
              intro hc
              subst hc
              rw [hent] at he2
              have : e2 = e := (Option.some.inj he2).symm
              subst this
              exact hie hid2.symm
            have hd2last : d2 ≠ s.components.length - 1 := by
              intro hc
              subst hc
              rw [hme] at he2
              have : e2 = me := (Option.some.inj he2).symm
              subst this
              exact him hid2.symm
            have hd2lt : d2 < s.entities.length := get?_lt_length he2
            refine ⟨e2, ?_, hid2⟩
            rw [get?_dropLast _ (by rw [length_listSwap]; omega)]
            rw [get?_listSwap_other _ hd2d hd2last]
            exact he2
      · intro d2 hlt
        rw [List.length_dropLast, length_listSwap] at hlt
        by_cases hdd : d2 = d
        · subst hdd
          refine ⟨me, ?_, ?_⟩
          · rw [get?_dropLast _ (by rw [length_listSwap]; omega)]
            exact hswapE_d
          · rw [get?_set_ne _ _ _ _ (Ne.symm hmene), get?_set_self _ _ _ hmeidx]
        · have hd2last : d2 ≠ s.components.length - 1 := by omega
          obtain ⟨e2, he2, hsp2⟩ := h2 d2 (by omega)
          have hene : e2.id ≠ e.id := by
            intro hc
            rw [hc, hsp] at hsp2
            have : d = d2 := by simpa using hsp2
            exact hdd this.symm
          have hmne : e2.id ≠ me.id := by
            intro hc
            rw [hc, hmesp] at hsp2
            have : s.components.length - 1 = d2 := by simpa using hsp2
            exact hd2last this.symm
          refine ⟨e2, ?_, ?_⟩
          · rw [get?_dropLast _ (by rw [length_listSwap]; omega)]
            rw [get?_listSwap_other _ hdd hd2last]
            exact he2
          · rw [get?_set_ne _ _ _ _ (Ne.symm hene),
              get?_set_ne _ _ _ _ (Ne.symm hmne)]
            exact hsp2
    have hnotmem : ∀ d2 e2,
        (listSwap s.entities d (s.components.length - 1)).dropLast.get? d2 =
          some e2 → e2 ≠ e := by
      intro d2 e2 h hcontra
      subst hcontra
      have hd2 : d2 < s.entities.length - 1 := by
        have := get?_lt_length h
        rwa [List.length_dropLast, length_listSwap] at this
      rw [get?_dropLast _ (by rw [length_listSwap]; omega)] at h
      by_cases hdd : d2 = d
      · subst hdd
        rw [hswapE_d] at h
        exact hmeE (Option.some.inj h)
      · rw [get?_listSwap_other _ hdd (by omega)] at h
        obtain ⟨e3, he3, hsp3⟩ := h2 d2 (by omega)
        rw [h] at he3
        have : e3 = e2 := (Option.some.inj he3).symm
        subst this
        rw [hsp] at hsp3
        have : d = d2 := by simpa using hsp3
        exact hdd this.symm
    have hpres : ∀ e2 c, e2 ≠ e → s.get e2 = some c →
        (⟨(s.sparse.set me.id (some d)).set e.id none,
          (listSwap s.entities d (s.components.length - 1)).dropLast,
          (listSwap s.components d (s.components.length - 1)).dropLast⟩ :
            SparseSet α).get e2 = some c := by
      intro e2 c hne hget
      obtain ⟨d1, hsp1, hent1, hc1⟩ := (get_eq_some_iff hInv e2 c).mp hget
      have hd1d : d1 ≠ d := by
        intro hc
        subst hc
        rw [hent] at hent1
        exact hne (Option.some.inj hent1).symm
      have hd1lt : d1 < s.entities.length := get?_lt_length hent1
      have hidne : e2.id ≠ e.id := by
        intro hc
        rw [hc, hsp] at hsp1
        have : d = d1 := by simpa using hsp1
        exact hd1d this.symm
      by_cases hd1last : d1 = s.components.length - 1
      · subst hd1last
        have he2me : e2 = me := by
          rw [hme] at hent1
          exact (Option.some.inj hent1).symm
        refine (get_eq_some_iff hInv2 e2 c).mpr ⟨d, ?_, ?_, ?_⟩
        · show ((s.sparse.set me.id (some d)).set e.id none).get? e2.id =
            some (some d)
          rw [get?_set_ne _ _ _ _ (Ne.symm hidne), he2me,
            get?_set_self _ _ _ hmeidx]
        · show (listSwap s.entities d (s.components.length - 1)).dropLast.get? d =
            some e2
          rw [get?_dropLast _ (by rw [length_listSwap]; omega), hswapE_d, he2me]
        · show (listSwap s.components d (s.components.length - 1)).dropLast.get? d =
            some c
          rw [get?_dropLast _ (by rw [length_listSwap]; omega), hswapC_d]
          exact hc1
      · have hmne2 : e2.id ≠ me.id := by
          intro hc
          rw [hc, hmesp] at hsp1
          have : s.components.length - 1 = d1 := by simpa using hsp1
          exact hd1last this.symm
        refine (get_eq_some_iff hInv2 e2 c).mpr ⟨d1, ?_, ?_, ?_⟩
        · show ((s.sparse.set me.id (some d)).set e.id none).get? e2.id =
            some (some d1)
          rw [get?_set_ne _ _ _ _ (Ne.symm hidne),
            get?_set_ne _ _ _ _ (Ne.symm hmne2)]
          exact hsp1
        · show (listSwap s.entities d (s.components.length - 1)).dropLast.get? d1 =
            some e2
          rw [get?_dropLast _ (by rw [length_listSwap]; omega)]
          rw [get?_listSwap_other _ hd1d hd1last]
          exact hent1
        · show (listSwap s.components d (s.components.length - 1)).dropLast.get? d1 =
            some c
          rw [get?_dropLast _ (by rw [length_listSwap]; omega)]
          rw [get?_listSwap_other _ hd1d hd1last]
          exact hc1
    exact ⟨_, heq,
      get?_set_self _ _ _ (by rw [List.length_set]; exact hidx),
      by rw [List.length_dropLast, length_listSwap]; omega,
      by rw [List.length_dropLast, length_listSwap]; omega,
      hnotmem, hInv2, hpres⟩

/-- Under the invariant, a removal with no exactly-matching stored entry
returns `false` and leaves the sparse set unchanged. -/
theorem remove_not_found {s : SparseSet α} {e : Entity} (hInv : SInv s)
    (h : ¬ ∃ d, s.sparse.get? e.id = some (some d) ∧ s.entities.get? d = some e) :
    s.remove e = (false, s) := by
  rcases hsp : s.sparse.get? e.id with _ | o
  · exact remove_eq_none_slot hsp
  · cases o with
    | none => exact remove_eq_unset_slot hsp
    | some d =>
      obtain ⟨ent, hent, hid⟩ := hInv.1 e.id d hsp
      have hne : ent ≠ e := fun hc => h ⟨d, hsp, hc ▸ hent⟩
      exact remove_eq_stale hsp hent hne

/-- `remove` returns `true` exactly when an entry is stored under `e`
itself. -/
theorem remove_fst_true_iff {s : SparseSet α} (hInv : SInv s) (e : Entity) :
    (s.remove e).1 = true ↔
      ∃ d, s.sparse.get? e.id = some (some d) ∧ s.entities.get? d = some e := by
  constructor
  · intro h
    by_contra hno
    rw [remove_not_found hInv hno] at h
    simp at h
  · rintro ⟨d, hsp, hent⟩
    obtain ⟨s2, heq, -⟩ := remove_success hInv hsp hent
    rw [heq]

/-- The structural invariant is preserved by `remove`. -/
theorem sInv_remove {s : SparseSet α} (hInv : SInv s) (e : Entity) :
    SInv (s.remove e).2 := by
  by_cases hex : ∃ d, s.sparse.get? e.id = some (some d) ∧
      s.entities.get? d = some e
  · obtain ⟨d, hsp, hent⟩ := hex
    obtain ⟨s2, heq, -, -, -, -, hInv2, -⟩ := remove_success hInv hsp hent
    rw [heq]
    exact hInv2
  · rw [remove_not_found hInv hex]
    exact hInv

/-- After `remove e`, the dense entity array never contains `e`. -/
theorem remove_not_mem {s : SparseSet α} (hInv : SInv s) {e e2 : Entity}
    {d2 : Nat} (h : (s.remove e).2.entities.get? d2 = some e2) : e2 ≠ e := by
  by_cases hex : ∃ d, s.sparse.get? e.id = some (some d) ∧
      s.entities.get? d = some e
  · obtain ⟨d, hsp, hent⟩ := hex
    obtain ⟨s2, heq, -, -, -, hnm, -, -⟩ := remove_success hInv hsp hent
    rw [heq] at h
    exact hnm d2 e2 h
  · intro hcontra
    rw [remove_not_found hInv hex] at h
    have hh : s.entities.get? d2 = some e := hcontra ▸ h
    obtain ⟨e3, he3, hsp3⟩ := hInv.2.1 d2 (by
      have := get?_lt_length hh
      have h3 := hInv.2.2
      omega)
    rw [hh] at he3
    have he3e : e3 = e := (Option.some.inj he3).symm
    subst he3e
    exact hex ⟨d2, hsp3, hh⟩

/-- Writing through `get_mut` preserves the structural invariant. -/
theorem sInv_writeViaGetMut {s : SparseSet α} (hInv : SInv s) (e : Entity)
    (c : α) : SInv (s.writeViaGetMut e c) := by
  unfold writeViaGetMut
  rcases hsp : s.sparse.get? e.id with _ | o
  · simp only [hsp]
    exact hInv
  · cases o with
    | none =>
      simp only [hsp]
      exact hInv
    | some d =>
      simp only [hsp]
      rcases hent : s.entities.get? d with _ | ent
      · simp only [hent]
        exact hInv
      · simp only [hent]
        by_cases he : ent = e
        · simp only [if_pos he]
          obtain ⟨h1, h2, h3⟩ := hInv
          exact ⟨h1, fun d2 hlt => h2 d2 (by rwa [List.length_set] at hlt),
            by simp [h3]⟩
        · simp only [if_neg he]
          exact hInv

/-- Translate the `getD` scrutinee of `insert` back to the original
sparse array. -/
theorem getD_some_of_growSparse {sp : List (Option Nat)} {index d : Nat}
    (hd : (growSparse sp index).getD index none = some d) :
    sp.get? index = some (some d) := by
  rw [← growSparse_get?_some_iff sp index]
  have hlt := lt_length_growSparse sp index
  rcases h : (growSparse sp index).get? index with _ | o
  · exact absurd (List.get?_eq_none.mp h) (by omega)
  · have hh : o = some d := by
      have hh2 : ((growSparse sp index).get? index).getD none = some d := hd
      rw [h] at hh2
      simpa using hh2
    rw [hh]

/-- After `insert e c`, looking up `e` yields exactly `c`. -/
theorem get_insert_self {s : SparseSet α} (hInv : SInv s) (e : Entity) (c : α) :
    (s.insert e c).get e = some c := by
  refine (get_eq_some_iff (sInv_insert hInv e c) e c).mpr ?_
  rcases hd : (growSparse s.sparse e.id).getD e.id none with _ | d
  · rw [insert_eq_append hd]
    refine ⟨s.components.length, ?_, ?_, ?_⟩
    · show ((growSparse s.sparse e.id).set e.id
          (some s.components.length)).get? e.id = some (some s.components.length)
      rw [get?_set_self _ _ _ (lt_length_growSparse s.sparse e.id)]
    · show (s.entities ++ [e]).get? s.components.length = some e
      rw [← hInv.2.2, get?_concat_self]
    · show (s.components ++ [c]).get? s.components.length = some c
      rw [get?_concat_self]
  · rw [insert_eq_update hd]
    have hsp : s.sparse.get? e.id = some (some d) := getD_some_of_growSparse hd
    obtain ⟨e0, he0, -⟩ := hInv.1 e.id d hsp
    have hdlen : d < s.entities.length := get?_lt_length he0
    have h3 := hInv.2.2
    refine ⟨d, ?_, ?_, ?_⟩
    · show (growSparse s.sparse e.id).get? e.id = some (some d)
      rw [growSparse_get?_some_iff]
      exact hsp
    · show (s.entities.set d e).get? d = some e
      rw [get?_set_self _ _ _ hdlen]
    · show (s.components.set d c).get? d = some c
      rw [get?_set_self _ _ _ (by omega)]

theorem getMutChecked_eq_getChecked (s : SparseSet α) (e : Entity) :
    s.getMutChecked e = s.getChecked e := rfl

/-- Under the invariant, `get` hits no unguarded out-of-range access. -/
theorem getChecked_isSome {s : SparseSet α} (hInv : SInv s) (e : Entity) :
    (s.getChecked e).isSome = true := by
  unfold getChecked
  rcases hsp : s.sparse.get? e.id with _ | o
  · simp only [hsp]
    rfl
  · cases o with
    | none =>
      simp only [hsp]
      rfl
    | some d =>
      obtain ⟨ent, hent, -⟩ := hInv.1 e.id d hsp
      have hdc : d < s.components.length := by
        have := get?_lt_length hent
        have h3 := hInv.2.2
        omega
      rcases hc : s.components.get? d with _ | c0
      · exact absurd (List.get?_eq_none.mp hc) (by omega)
      · by_cases he : ent = e
        · simp only [hsp, hent, if_pos he, hc]
          rfl
        · simp only [hsp, hent, if_neg he]
          rfl

/-- Under the invariant, `remove` hits no unguarded out-of-range access,
length underflow, or out-of-range swap. -/
theorem removeChecked_isSome {s : SparseSet α} (hInv : SInv s) (e : Entity) :
    (s.removeChecked e).isSome = true := by
  by_cases hex : ∃ d, s.sparse.get? e.id = some (some d) ∧
      s.entities.get? d = some e
  · obtain ⟨d, hsp, hent⟩ := hex
    obtain ⟨s2, heq, -⟩ := remove_success hInv hsp hent
    rcases h : s.removeChecked e with _ | p
    · exfalso
      unfold remove at heq
      rw [h] at heq
      simp at heq
    · rfl
  · rcases hsp : s.sparse.get? e.id with _ | o
    · unfold removeChecked
      simp only [hsp]
      rfl
    · cases o with
      | none =>
        unfold removeChecked
        simp only [hsp]
        rfl
      | some d =>
        obtain ⟨ent, hent, -⟩ := hInv.1 e.id d hsp
        have hne : ent ≠ e := fun hc => hex ⟨d, hsp, hc ▸ hent⟩
        unfold removeChecked
        simp only [hsp, hent, if_pos hne]
        rfl

end SparseSet

/-- The invariant is preserved by every single operation. -/
theorem sInv_apply {α : Type} {s : SparseSet α} (hInv : SInv s) (op : SSOp α) :
    SInv (op.apply s) := by
  cases op with
  | insertOp e c => exact SparseSet.sInv_insert hInv e c
  | removeOp e => exact SparseSet.sInv_remove hInv e
  | getOp e => exact hInv
  | getMutOp e c => exact SparseSet.sInv_writeViaGetMut hInv e c
  | iterOp => exact hInv

theorem sInv_foldl {α : Type} (ops : List (SSOp α)) (s : SparseSet α)
    (hInv : SInv s) : SInv (ops.foldl SSOp.apply s) := by
  induction ops generalizing s with
  | nil => exact hInv
  | cons op rest ih => exact ih _ (sInv_apply hInv op)

section Registry

variable {α : Type}

theorem lookup_insertStorage_eq (l : List (Nat × SparseSet α)) (tid : Nat)
    (e : Entity) (c : α) :
    lookupStorage (insertStorage l tid e c) tid =
      some (((lookupStorage l tid).getD SparseSet.new).insert e c) := by
  induction l with
  | nil => simp [insertStorage, lookupStorage]
  | cons p rest ih =>
    obtain ⟨t, s⟩ := p
    by_cases ht : t = tid
    · subst ht
      simp [insertStorage, lookupStorage]
    · simp [insertStorage, lookupStorage, ht, ih]

theorem lookup_insertStorage_ne (l : List (Nat × SparseSet α)) {tid tid2 : Nat}
    (e : Entity) (c : α) (h : tid2 ≠ tid) :
    lookupStorage (insertStorage l tid e c) tid2 = lookupStorage l tid2 := by
  induction l with
  | nil => simp [insertStorage, lookupStorage, Ne.symm h]
  | cons p rest ih =>
    obtain ⟨t, s⟩ := p
    by_cases ht : t = tid
    · subst ht
      simp [insertStorage, lookupStorage, Ne.symm h]
    · by_cases ht2 : t = tid2
      · subst ht2
        simp [insertStorage, lookupStorage, ht]
      · simp [insertStorage, lookupStorage, ht, ht2, ih]

theorem lookup_removeStorage_eq (l : List (Nat × SparseSet α)) (tid : Nat)
    (e : Entity) :
    lookupStorage (removeStorage l tid e) tid =
      (lookupStorage l tid).map fun s => (s.remove e).2 := by
  induction l with
  | nil => simp [removeStorage, lookupStorage]
  | cons p rest ih =>
    obtain ⟨t, s⟩ := p
    by_cases ht : t = tid
    · subst ht
      simp [removeStorage, lookupStorage]
    · simp [removeStorage, lookupStorage, ht, ih]

theorem lookup_removeStorage_ne (l : List (Nat × SparseSet α)) {tid tid2 : Nat}
    (e : Entity) (h : tid2 ≠ tid) :
    lookupStorage (removeStorage l tid e) tid2 = lookupStorage l tid2 := by
  induction l with
  | nil => simp [removeStorage, lookupStorage]
  | cons p rest ih =>
    obtain ⟨t, s⟩ := p
    by_cases ht : t = tid
    · subst ht
      simp [removeStorage, lookupStorage, Ne.symm h]
    · by_cases ht2 : t = tid2
      · subst ht2
        simp [removeStorage, lookupStorage, ht]
      · simp [removeStorage, lookupStorage, ht, ht2, ih]

theorem lookup_map_remove (l : List (Nat × SparseSet α)) (e : Entity)
    (tid : Nat) :
    lookupStorage (l.map fun p => (p.1, (p.2.remove e).2)) tid =
      (lookupStorage l tid).map fun s => (s.remove e).2 := by
  induction l with
  | nil => simp [lookupStorage]
  | cons p rest ih =>
    obtain ⟨t, s⟩ := p
    by_cases ht : t = tid
    · subst ht
      simp [lookupStorage]
    · simp [lookupStorage, ht, ih]

end Registry

namespace SparseSetBackend

variable {α : Type}

/-- Equation: destroying an entity whose index is beyond the metadata
vector fails. -/
theorem destroy_entity_eq_err_len {b : SparseSetBackend α} {e : Entity}
    (hlen : b.entities.length ≤ e.id) :
    b.destroy_entity e = (.error (.EntityNotFound e), b) := by
  unfold destroy_entity
  rw [if_pos hlen]

/-- Equation: destroying a dead or generation-mismatched entity fails. -/
theorem destroy_entity_eq_err_meta {b : SparseSetBackend α} {e : Entity}
    (hlen : ¬ b.entities.length ≤ e.id)
    (hmeta : (b.entities.getD e.id ⟨0, false⟩).alive = false ∨
      (b.entities.getD e.id ⟨0, false⟩).generation ≠ e.generation) :
    b.destroy_entity e = (.error (.EntityNotFound e), b) := by
  unfold destroy_entity
  rw [if_neg hlen, if_pos hmeta]

/-- Equation: a successful destruction marks the slot dead, clears every
storage for the entity, and pushes the index on the free list. -/
theorem destroy_entity_eq_ok {b : SparseSetBackend α} {e : Entity}
    (hlen : ¬ b.entities.length ≤ e.id)
    (hmeta : ¬ ((b.entities.getD e.id ⟨0, false⟩).alive = false ∨
      (b.entities.getD e.id ⟨0, false⟩).generation ≠ e.generation)) :
    b.destroy_entity e = (.ok (),
      ⟨b.entities.set e.id
         { b.entities.getD e.id ⟨0, false⟩ with alive := false },
       e.id :: b.free_list,
       b.storages.map fun p => (p.1, (p.2.remove e).2)⟩) := by
  unfold destroy_entity
  rw [if_neg hlen, if_neg hmeta]

/-- `is_alive` in terms of the metadata lookup. -/
theorem is_alive_eq_false_iff (b : SparseSetBackend α) (e : Entity) :
    b.is_alive e = false ↔
      (b.entities.get? e.id = none ∨
       ∃ m, b.entities.get? e.id = some m ∧
         (m.alive = false ∨ m.generation ≠ e.generation)) := by
  unfold is_alive
  rcases hm : b.entities.get? e.id with _ | m
  · simp only [hm]
    simp
  · simp only [hm]
    constructor
    · intro h
      right
      refine ⟨m, rfl, ?_⟩
      by_cases ha : m.alive = false
      · exact Or.inl ha
      · right
        intro hg
        have ha2 : m.alive = true := by
          cases hb : m.alive
          · exact absurd hb ha
          · rfl
        rw [ha2, hg] at h
        simp at h
    · rintro (habs | ⟨m2, hm2, hcase⟩)
      · exact Option.noConfusion habs
      · have : m2 = m := (Option.some.inj hm2).symm
        subst this
        rcases hcase with ha | hg
        · simp [ha]
        · simp [hg]

theorem is_alive_eq_true_iff (b : SparseSetBackend α) (e : Entity) :
    b.is_alive e = true ↔
      ∃ m, b.entities.get? e.id = some m ∧ m.alive = true ∧
        m.generation = e.generation := by
  unfold is_alive
  rcases hm : b.entities.get? e.id with _ | m
  · simp only [hm]
    simp
  · simp only [hm]
    constructor
    · intro h
      simp only [Bool.and_eq_true, beq_iff_eq] at h
      exact ⟨m, rfl, h.1, h.2⟩
    · rintro ⟨m2, hm2, ha, hg⟩
      have : m2 = m := (Option.some.inj hm2).symm
      subst this
      simp [ha, hg]

theorem is_alive_eq_of_get? {b : SparseSetBackend α} {e : Entity}
    {m : EntityMeta} (h : b.entities.get? e.id = some m) :
    b.is_alive e = (m.alive && m.generation == e.generation) := by
  unfold is_alive
  simp only [h]

/-- Equation: `create_entity` with a non-empty free list pops the top
index and bumps its generation with wrapping arithmetic. -/
theorem create_entity_eq_pop {b : SparseSetBackend α} {id : Nat}
    {rest : List Nat} (h : b.free_list = id :: rest) :
    b.create_entity =
      (⟨id, ((b.entities.getD id ⟨0, false⟩).generation + 1) % U32MOD⟩,
       { b with
         entities := b.entities.set id
           ⟨((b.entities.getD id ⟨0, false⟩).generation + 1) % U32MOD, true⟩,
         free_list := rest }) := by
  unfold create_entity
  rw [h]

/-- Equation: `create_entity` with an empty free list appends a fresh
slot at generation 0. -/
theorem create_entity_eq_fresh {b : SparseSetBackend α}
    (h : b.free_list = []) :
    b.create_entity =
      (⟨b.entities.length, 0⟩,
       { b with entities := b.entities ++ [⟨0, true⟩] }) := by
  unfold create_entity
  rw [h]

theorem add_component_eq_ok {b : SparseSetBackend α} {e : Entity} (tid : Nat)
    (c : α) (halive : b.is_alive e = true) :
    b.add_component tid e c =
      (.ok (), { b with storages := insertStorage b.storages tid e c }) := by
  unfold add_component
  rw [if_neg (by rw [halive]; simp)]

theorem add_component_eq_err {b : SparseSetBackend α} {e : Entity} (tid : Nat)
    (c : α) (h : b.is_alive e = false) :
    b.add_component tid e c = (.error (.EntityNotFound e), b) := by
  unfold add_component
  rw [if_pos h]

theorem get_component_eq_dead {b : SparseSetBackend α} {e : Entity} (tid : Nat)
    (h : b.is_alive e = false) : b.get_component tid e = none := by
  unfold get_component
  rw [if_pos h]

theorem get_component_mut_eq_dead {b : SparseSetBackend α} {e : Entity}
    (tid : Nat) (h : b.is_alive e = false) : b.get_component_mut tid e = none := by
  unfold get_component_mut
  rw [if_pos h]

theorem get_component_eq_alive {b : SparseSetBackend α} {e : Entity} (tid : Nat)
    (h : b.is_alive e = true) :
    b.get_component tid e = (lookupStorage b.storages tid).bind fun s => s.get e := by
  unfold get_component
  rw [if_neg (by rw [h]; simp)]

theorem remove_component_eq_err {b : SparseSetBackend α} {e : Entity} (tid : Nat)
    (h : b.is_alive e = false) :
    b.remove_component tid e = (.error (.EntityNotFound e), b) := by
  unfold remove_component
  rw [if_pos h]

theorem query_component_eq_of_lookup {b : SparseSetBackend α} {tid : Nat}
    {s : SparseSet α} (h : lookupStorage b.storages tid = some s) :
    b.query_component tid = s.iter := by
  unfold query_component
  simp only [h]

theorem query_component_eq_nil {b : SparseSetBackend α} {tid : Nat}
    (h : lookupStorage b.storages tid = none) :
    b.query_component tid = [] := by
  unfold query_component
  simp only [h]

/-- Post-state of a successful `destroy_entity`: the entity is no longer
alive, every component read returns `None`, no query result contains it,
and a second destruction fails with `EntityNotFound`. -/
theorem destroy_entity_post (b : SparseSetBackend α) (e : Entity)
    (hInv : b.StoragesInv)
    (hok : (b.destroy_entity e).1 = .ok ()) :
    (b.destroy_entity e).2.is_alive e = false ∧
    (∀ tid, (b.destroy_entity e).2.get_component tid e = none) ∧
    (∀ tid p, p ∈ (b.destroy_entity e).2.query_component tid → p.1 ≠ e) ∧
    ((b.destroy_entity e).2.destroy_entity e).1 =
      .error (.EntityNotFound e) := by
  by_cases hlen : b.entities.length ≤ e.id
  · rw [destroy_entity_eq_err_len hlen] at hok
    exact absurd hok (by simp)
  by_cases hmeta : (b.entities.getD e.id ⟨0, false⟩).alive = false ∨
      (b.entities.getD e.id ⟨0, false⟩).generation ≠ e.generation
  · rw [destroy_entity_eq_err_meta hlen hmeta] at hok
    exact absurd hok (by simp)
  · rw [destroy_entity_eq_ok hlen hmeta]
    have hlt : e.id < b.entities.length := by omega
    have hget2 :
        (b.entities.set e.id
          { b.entities.getD e.id ⟨0, false⟩ with alive := false }).get? e.id =
        some { b.entities.getD e.id ⟨0, false⟩ with alive := false } :=
      get?_set_self _ _ _ hlt
    have halive2 :
        (⟨b.entities.set e.id
            { b.entities.getD e.id ⟨0, false⟩ with alive := false },
          e.id :: b.free_list,
          b.storages.map fun p => (p.1, (p.2.remove e).2)⟩ :
            SparseSetBackend α).is_alive e = false := by
      rw [is_alive_eq_of_get? hget2]
      simp
    refine ⟨halive2, ?_, ?_, ?_⟩
    · intro tid
      exact get_component_eq_dead tid halive2
    · intro tid p hp
      have hlk : lookupStorage
          ((⟨b.entities.set e.id
              { b.entities.getD e.id ⟨0, false⟩ with alive := false },
            e.id :: b.free_list,
            b.storages.map fun q => (q.1, (q.2.remove e).2)⟩ :
              SparseSetBackend α)).storages tid =
          (lookupStorage b.storages tid).map fun s => (s.remove e).2 :=
        lookup_map_remove b.storages e tid
      rcases hl : lookupStorage b.storages tid with _ | s
      · rw [hl] at hlk
        rw [query_component_eq_nil hlk] at hp
        exact absurd hp (List.not_mem_nil p)
      · rw [hl] at hlk
        rw [query_component_eq_of_lookup hlk] at hp
        have hmem : p.1 ∈ (s.remove e).2.entities := (List.mem_zip hp).1
        obtain ⟨d2, hd2⟩ := List.mem_iff_get?.mp hmem
        exact SparseSet.remove_not_mem (hInv tid s hl) hd2
    · have hlen2 : ¬ (b.entities.set e.id
          { b.entities.getD e.id ⟨0, false⟩ with alive := false }).length ≤
            e.id := by
        rw [List.length_set]
        omega
      have hmeta2 : ((b.entities.set e.id
          { b.entities.getD e.id ⟨0, false⟩ with alive := false }).getD e.id
            ⟨0, false⟩).alive = false ∨
          ((b.entities.set e.id
            { b.entities.getD e.id ⟨0, false⟩ with alive := false }).getD e.id
              ⟨0, false⟩).generation ≠ e.generation := by
        left
        have heq : (b.entities.set e.id
            { b.entities.getD e.id ⟨0, false⟩ with alive := false }).getD e.id
              ⟨0, false⟩ =
            { b.entities.getD e.id ⟨0, false⟩ with alive := false } := by
          show ((b.entities.set e.id _).get? e.id).getD _ = _
          rw [hget2]
          rfl
        rw [heq]
      rw [destroy_entity_eq_err_meta hlen2 hmeta2]

/-- Reusing a slot that is dead at exactly the stale entity's generation
(the state right after destroying it) yields a distinct entity, leaves the
stale entity dead, and keeps every component read of the stale entity
`None` even after a component is added to the new entity. -/
theorem create_after_destroy_stale (b : SparseSetBackend α) (e1 : Entity)
    (hslot : b.entities.get? e1.id = some ⟨e1.generation, false⟩)
    (hidx : (b.create_entity).1.id = e1.id) :
    (b.create_entity).1 ≠ e1 ∧
    (b.create_entity).2.is_alive e1 = false ∧
    (∀ tid (c : α),
      (((b.create_entity).2.add_component tid
        (b.create_entity).1 c).2).get_component tid e1 = none) := by
  have hlt : e1.id < b.entities.length := get?_lt_length hslot
  rcases hfl : b.free_list with _ | ⟨id, rest⟩
  · rw [create_entity_eq_fresh hfl] at hidx
    have : b.entities.length = e1.id := hidx
    omega
  · rw [create_entity_eq_pop hfl] at hidx
    have hid : id = e1.id := hidx
    subst hid
    have hmeta : b.entities.getD e1.id ⟨0, false⟩ = ⟨e1.generation, false⟩ := by
      show (b.entities.get? e1.id).getD _ = _
      rw [hslot]
      rfl
    rw [create_entity_eq_pop hfl, hmeta]
    have hg2 : (e1.generation + 1) % U32MOD ≠ e1.generation := by
      simp only [U32MOD]
      omega
    have hget2 : (b.entities.set e1.id
        ⟨(e1.generation + 1) % U32MOD, true⟩).get? e1.id =
        some ⟨(e1.generation + 1) % U32MOD, true⟩ :=
      get?_set_self _ _ _ hlt
    have halive1 : ({ b with
        entities := b.entities.set e1.id ⟨(e1.generation + 1) % U32MOD, true⟩,
        free_list := rest } : SparseSetBackend α).is_alive e1 = false := by
      rw [is_alive_eq_of_get? hget2]
      simp [hg2]
    refine ⟨?_, halive1, ?_⟩
    · intro hc
      exact hg2 (congrArg Entity.generation hc)
    · intro tid c
      have halive2 : ({ b with
          entities := b.entities.set e1.id ⟨(e1.generation + 1) % U32MOD, true⟩,
          free_list := rest } : SparseSetBackend α).is_alive
            ⟨e1.id, (e1.generation + 1) % U32MOD⟩ = true := by
        rw [is_alive_eq_of_get? hget2]
        simp
      rw [add_component_eq_ok tid c halive2]
      exact get_component_eq_dead tid halive1

/-- One create/destroy cycle on the one-slot dead state bumps the slot
generation by one, modulo `2 ^ 32`. -/
theorem cycle_deadState (g : Nat) :
    cycleCreateDestroy (deadState g) = deadState ((g + 1) % U32MOD) := by
  have h1 : (deadState g).create_entity =
      (⟨0, (g + 1) % U32MOD⟩,
       (⟨[⟨(g + 1) % U32MOD, true⟩], [], []⟩ : SparseSetBackend Nat)) := by
    rw [create_entity_eq_pop (show (deadState g).free_list = 0 :: [] from rfl)]
    rfl
  have h2 : ((⟨[⟨(g + 1) % U32MOD, true⟩], [], []⟩ :
      SparseSetBackend Nat).destroy_entity ⟨0, (g + 1) % U32MOD⟩) =
      (.ok (), deadState ((g + 1) % U32MOD)) := by
    rw [SparseSetBackend.destroy_entity_eq_ok (by simp) (by simp [List.getD])]
    rfl
  unfold cycleCreateDestroy
  rw [h1]
  rw [show ((⟨0, (g + 1) % U32MOD⟩,
      (⟨[⟨(g + 1) % U32MOD, true⟩], [], []⟩ : SparseSetBackend Nat)) :
        Entity × SparseSetBackend Nat).2 =
      (⟨[⟨(g + 1) % U32MOD, true⟩], [], []⟩ : SparseSetBackend Nat) from rfl]
  rw [show ((⟨0, (g + 1) % U32MOD⟩,
      (⟨[⟨(g + 1) % U32MOD, true⟩], [], []⟩ : SparseSetBackend Nat)) :
        Entity × SparseSetBackend Nat).1 = (⟨0, (g + 1) % U32MOD⟩ : Entity)
      from rfl]
  rw [h2]

/-- Iterating the create/destroy cycle `k` times reaches the dead state
at generation `k % 2 ^ 32`. -/
theorem cycle_iterate (k : Nat) :
    cycleCreateDestroy^[k] (deadState 0) = deadState (k % U32MOD) := by
  induction k with
  | zero =>
    rw [Function.iterate_zero, Nat.zero_mod]
    rfl
  | succ n ih =>
    rw [Function.iterate_succ_apply', ih, cycle_deadState]
    congr 1
    simp only [U32MOD]
    omega

theorem is_aliveChecked_eq (b : SparseSetBackend α) (e : Entity) :
    b.is_aliveChecked e = some (b.is_alive e) := by
  unfold is_aliveChecked is_alive
  rcases h : b.entities.get? e.id with _ | m
  · simp only [h]
  · simp only [h]

theorem remove_component_fst_ok {b : SparseSetBackend α} {e : Entity}
    (tid : Nat) (h : b.is_alive e = true) :
    (b.remove_component tid e).1 = .ok () := by
  unfold remove_component
  rw [if_neg (by rw [h]; simp)]
  rcases h2 : lookupStorage b.storages tid with _ | s
  · simp only [h2]
  · simp only [h2]

end SparseSetBackend

theorem lookup_singleton {α : Type} {t0 tid : Nat} {s0 s : SparseSet α}
    (h : lookupStorage [(t0, s0)] tid = some s) : s = s0 := by
  unfold lookupStorage at h
  split at h
  · exact (Option.some.inj h).symm
  · rw [show lookupStorage ([] : List (Nat × SparseSet α)) tid = none from rfl]
      at h
    exact Option.noConfusion h

theorem sInv_ssEx : SInv ssEx := by
  refine ⟨?_, ?_, rfl⟩
  · intro i d h
    match i, h with
    | 0, h => exact absurd (Option.some.inj h) (by simp)
    | 1, h =>
      have hd : d = 0 := by simpa using (Option.some.inj h).symm
      subst hd
      exact ⟨⟨1, 7⟩, rfl, rfl⟩
    | (n + 2), h => exact Option.noConfusion h
  · intro d hd
    match d, hd with
    | 0, _ => exact ⟨⟨1, 7⟩, rfl, rfl⟩

theorem sInv_ssEx0 : SInv ssEx0 := by
  refine ⟨?_, ?_, rfl⟩
  · intro i d h
    match i, h with
    | 0, h =>
      have hd : d = 0 := by simpa using (Option.some.inj h).symm
      subst hd
      exact ⟨⟨0, 7⟩, rfl, rfl⟩
    | (n + 1), h => exact Option.noConfusion h
  · intro d hd
    match d, hd with
    | 0, _ => exact ⟨⟨0, 7⟩, rfl, rfl⟩

theorem storagesInv_bEx : bEx.StoragesInv := by
  intro tid s h
  have : s = ssEx0 := lookup_singleton h
  subst this
  exact sInv_ssEx0

/-- C1: for every sequence of `SparseSet` operations (`insert`, `remove`,
`get`, `get_mut`, `iter`) starting from the empty sparse set, the
structural invariant — `sparse[i] = Some d → entities[d].index = i`,
every dense position pointed back to by its entity's sparse slot, and
`entities.len() = components.len()` — holds after each operation. -/
theorem C1_sparse_invariant_all_ops {α : Type} (ops : List (SSOp α)) :
    SInv (ops.foldl SSOp.apply SparseSet.new) :=
  sInv_foldl ops SparseSet.new SparseSet.sInv_new

/-- C5: under the structural invariant, `get` (and `get_mut`, whose result
coincides with `get`) returns the stored component iff it is stored under
the identical `(index, generation)` pair, and returns `None` exactly when
the sparse slot is unset or the stored dense entity differs from `e`. -/
theorem C5_get_semantics {α : Type} (s : SparseSet α) (e : Entity)
    (hInv : SInv s) :
    (∀ c, s.get e = some c ↔
      ∃ d, s.sparse.get? e.id = some (some d) ∧
        s.entities.get? d = some e ∧ s.components.get? d = some c) ∧
    s.get_mut e = s.get e ∧
    (s.get e = none ↔
      (s.sparse.getD e.id none = none ∨
       ∃ d ent, s.sparse.get? e.id = some (some d) ∧
         s.entities.get? d = some ent ∧ ent ≠ e)) :=
  ⟨fun c => SparseSet.get_eq_some_iff hInv e c,
   SparseSet.get_mut_eq_get s e,
   SparseSet.get_eq_none_iff hInv e⟩

/-- Witness for C5 at the concrete storage `ssEx` and entity `⟨1, 7⟩`. -/
theorem C5_get_semantics_witness :
    SInv ssEx ∧
    ((∀ c, ssEx.get ⟨1, 7⟩ = some c ↔
      ∃ d, ssEx.sparse.get? (Entity.mk 1 7).id = some (some d) ∧
        ssEx.entities.get? d = some ⟨1, 7⟩ ∧ ssEx.components.get? d = some c) ∧
     ssEx.get_mut ⟨1, 7⟩ = ssEx.get ⟨1, 7⟩ ∧
     (ssEx.get ⟨1, 7⟩ = none ↔
      (ssEx.sparse.getD (Entity.mk 1 7).id none = none ∨
       ∃ d ent, ssEx.sparse.get? (Entity.mk 1 7).id = some (some d) ∧
         ssEx.entities.get? d = some ent ∧ ent ≠ ⟨1, 7⟩))) :=
  ⟨sInv_ssEx, C5_get_semantics ssEx ⟨1, 7⟩ sInv_ssEx⟩

/-- C6: under the structural invariant, `remove e` returns `true` iff an
entry stored under exactly `e` existed (and was removed); a failing
`remove` (absent entry or stale generation) leaves the sparse set
unchanged; a successful `remove` clears `sparse[e.index]`, shrinks both
dense arrays by one, makes `get e` absent, and keeps every other stored
entry retrievable by `get`; when the removed entry is not the last dense
pair, the last dense entity is swapped into its position and that moved
entity's sparse slot is repointed. -/
theorem C6_remove_semantics {α : Type} (s : SparseSet α) (e : Entity)
    (hInv : SInv s) :
    ((s.remove e).1 = true ↔
      ∃ d, s.sparse.get? e.id = some (some d) ∧ s.entities.get? d = some e) ∧
    ((s.remove e).1 = false → (s.remove e).2 = s) ∧
    ((s.remove e).1 = true →
      (s.remove e).2.sparse.get? e.id = some none ∧
      (s.remove e).2.entities.length + 1 = s.entities.length ∧
      (s.remove e).2.components.length + 1 = s.components.length ∧
      (s.remove e).2.get e = none ∧
      (∀ e2 c, e2 ≠ e → s.get e2 = some c → (s.remove e).2.get e2 = some c)) ∧
    (∀ d, s.sparse.get? e.id = some (some d) → s.entities.get? d = some e →
      d + 1 < s.components.length →
      (s.remove e).2.entities.get? d = s.entities.get? (s.components.length - 1) ∧
      (s.remove e).2.sparse.get?
        ((s.entities.getD (s.components.length - 1) ⟨0, 0⟩).id) =
          some (some d)) := by
  have h3 := hInv.2.2
  refine ⟨SparseSet.remove_fst_true_iff hInv e, ?_, ?_, ?_⟩
  · intro hfalse
    by_cases hex : ∃ d, s.sparse.get? e.id = some (some d) ∧
        s.entities.get? d = some e
    · obtain ⟨d, hsp, hent⟩ := hex
      obtain ⟨s2, heq, -⟩ := SparseSet.remove_success hInv hsp hent
      rw [heq] at hfalse
      simp at hfalse
    · rw [SparseSet.remove_not_found hInv hex]
  · intro htrue
    obtain ⟨d, hsp, hent⟩ := (SparseSet.remove_fst_true_iff hInv e).mp htrue
    obtain ⟨s2, heq, hcl, hl1, hl2, hnm, hInv2, hpres⟩ :=
      SparseSet.remove_success hInv hsp hent
    rw [heq]
    refine ⟨hcl, hl1, hl2, ?_, fun e2 c hne hget => hpres e2 c hne hget⟩
    refine (SparseSet.get_eq_none_iff hInv2 e).mpr (Or.inl ?_)
    show (s2.sparse.get? e.id).getD none = none
    rw [hcl]
    rfl
  · intro d hsp hent hlt
    have hnotlast : ¬ d = s.components.length - 1 := by omega
    obtain ⟨me, hme, hmesp, heq⟩ := SparseSet.remove_eq_swap hInv hsp hent hnotlast
    have hmeidx : me.id < s.sparse.length := get?_lt_length hmesp
    have hmene : me.id ≠ e.id := by
      intro hc
      rw [hc, hsp] at hmesp
      have : d = s.components.length - 1 := by simpa using hmesp
      exact hnotlast this
    have hdlen : d < s.entities.length := get?_lt_length hent
    have hgetD : s.entities.getD (s.components.length - 1) ⟨0, 0⟩ = me := by
      show (s.entities.get? _).getD _ = me
      rw [hme]
      rfl
    rw [heq, hgetD]
    constructor
    · show (listSwap s.entities d (s.components.length - 1)).dropLast.get? d =
        s.entities.get? (s.components.length - 1)
      rw [get?_dropLast _ (by rw [length_listSwap]; omega)]
      rw [get?_listSwap_fst _ hdlen (by omega)]
    · show ((s.sparse.set me.id (some d)).set e.id none).get? me.id =
        some (some d)
      rw [get?_set_ne _ _ _ _ (Ne.symm hmene), get?_set_self _ _ _ hmeidx]

/-- Witness for C6 at the concrete storage `ssEx` and entity `⟨1, 7⟩`. -/
theorem C6_remove_semantics_witness :
    SInv ssEx ∧
    (((ssEx.remove ⟨1, 7⟩).1 = true ↔
      ∃ d, ssEx.sparse.get? (Entity.mk 1 7).id = some (some d) ∧
        ssEx.entities.get? d = some ⟨1, 7⟩) ∧
     ((ssEx.remove ⟨1, 7⟩).1 = false → (ssEx.remove ⟨1, 7⟩).2 = ssEx) ∧
     ((ssEx.remove ⟨1, 7⟩).1 = true →
      (ssEx.remove ⟨1, 7⟩).2.sparse.get? (Entity.mk 1 7).id = some none ∧
      (ssEx.remove ⟨1, 7⟩).2.entities.length + 1 = ssEx.entities.length ∧
      (ssEx.remove ⟨1, 7⟩).2.components.length + 1 = ssEx.components.length ∧
      (ssEx.remove ⟨1, 7⟩).2.get ⟨1, 7⟩ = none ∧
      (∀ e2 c, e2 ≠ ⟨1, 7⟩ → ssEx.get e2 = some c →
        (ssEx.remove ⟨1, 7⟩).2.get e2 = some c)) ∧
     (∀ d, ssEx.sparse.get? (Entity.mk 1 7).id = some (some d) →
      ssEx.entities.get? d = some ⟨1, 7⟩ →
      d + 1 < ssEx.components.length →
      (ssEx.remove ⟨1, 7⟩).2.entities.get? d =
        ssEx.entities.get? (ssEx.components.length - 1) ∧
      (ssEx.remove ⟨1, 7⟩).2.sparse.get?
        ((ssEx.entities.getD (ssEx.components.length - 1) ⟨0, 0⟩).id) =
          some (some d))) :=
  ⟨sInv_ssEx, C6_remove_semantics ssEx ⟨1, 7⟩ sInv_ssEx⟩

/-- C10: for every entity value — including one built by `from_raw_parts`
with an index at or beyond the length of the sparse or metadata arrays —
`SparseSet::get`, `SparseSet::get_mut` and `SparseSet::remove` are
panic-free under the structural invariant (their panic-instrumented
translations return `some`, i.e. every unguarded dense access is in
bounds), and `SparseSetBackend::is_alive` is panic-free unconditionally
(its instrumented translation always returns `some` of its result,
because its body uses only checked `Option`-returning lookups). -/
theorem C10_panic_free {α : Type} (s : SparseSet α) (e : Entity)
    (hInv : SInv s) :
    (s.getChecked e).isSome = true ∧
    (s.getMutChecked e).isSome = true ∧
    (s.removeChecked e).isSome = true ∧
    (∀ (b : SparseSetBackend α) (e2 : Entity),
      b.is_aliveChecked e2 = some (b.is_alive e2)) :=
  ⟨SparseSet.getChecked_isSome hInv e,
   by rw [SparseSet.getMutChecked_eq_getChecked]
      exact SparseSet.getChecked_isSome hInv e,
   SparseSet.removeChecked_isSome hInv e,
   fun b e2 => SparseSetBackend.is_aliveChecked_eq b e2⟩

/-- Witness for C10 at the concrete storage `ssEx` and the out-of-range
entity `⟨99, 3⟩`. -/
theorem C10_panic_free_witness :
    SInv ssEx ∧
    ((ssEx.getChecked ⟨99, 3⟩).isSome = true ∧
     (ssEx.getMutChecked ⟨99, 3⟩).isSome = true ∧
     (ssEx.removeChecked ⟨99, 3⟩).isSome = true ∧
     (∀ (b : SparseSetBackend Nat) (e2 : Entity),
       b.is_aliveChecked e2 = some (b.is_alive e2))) :=
  ⟨sInv_ssEx, C10_panic_free ssEx ⟨99, 3⟩ sInv_ssEx⟩

/-- C4: for every entity that is dead, never existed, or stale (its slot's
metadata is absent, marked not alive, or carries a different generation),
the mutating operations `destroy_entity`, `add_component` and
`remove_component` return `EntityNotFound`, and the reads `get_component`
and `get_component_mut` return `None`. -/
theorem C4_dead_entity_ops {α : Type} (b : SparseSetBackend α) (e : Entity)
    (h : b.entities.get? e.id = none ∨
         ∃ m, b.entities.get? e.id = some m ∧
           (m.alive = false ∨ m.generation ≠ e.generation)) :
    (b.destroy_entity e).1 = .error (.EntityNotFound e) ∧
    (∀ tid (c : α), (b.add_component tid e c).1 = .error (.EntityNotFound e)) ∧
    (∀ tid, (b.remove_component tid e).1 = .error (.EntityNotFound e)) ∧
    (∀ tid, b.get_component tid e = none) ∧
    (∀ tid, b.get_component_mut tid e = none) := by
  have halive : b.is_alive e = false :=
    (SparseSetBackend.is_alive_eq_false_iff b e).mpr h
  refine ⟨?_, ?_, ?_, ?_, ?_⟩
  · by_cases hlen : b.entities.length ≤ e.id
    · rw [SparseSetBackend.destroy_entity_eq_err_len hlen]
    · have hlt : e.id < b.entities.length := by omega
      rcases h with habs | ⟨m, hm, hcase⟩
      · exact absurd (List.get?_eq_none.mp habs) (by omega)
      · have hmeta : (b.entities.getD e.id ⟨0, false⟩).alive = false ∨
            (b.entities.getD e.id ⟨0, false⟩).generation ≠ e.generation := by
          have hget : b.entities.getD e.id ⟨0, false⟩ = m := by
            show (b.entities.get? e.id).getD _ = m
            rw [hm]
            rfl
          rw [hget]
          exact hcase
        rw [SparseSetBackend.destroy_entity_eq_err_meta hlen hmeta]
  · intro tid c
    rw [SparseSetBackend.add_component_eq_err tid c halive]
  · intro tid
    rw [SparseSetBackend.remove_component_eq_err tid halive]
  · intro tid
    exact SparseSetBackend.get_component_eq_dead tid halive
  · intro tid
    exact SparseSetBackend.get_component_mut_eq_dead tid halive

/-- Witness for C4 on the empty backend and the never-created entity
`⟨0, 0⟩`. -/
theorem C4_dead_entity_ops_witness :
    ((SparseSetBackend.new : SparseSetBackend Nat).entities.get?
        (Entity.mk 0 0).id = none ∨
     ∃ m, (SparseSetBackend.new : SparseSetBackend Nat).entities.get?
        (Entity.mk 0 0).id = some m ∧
       (m.alive = false ∨ m.generation ≠ (Entity.mk 0 0).generation)) ∧
    (((SparseSetBackend.new : SparseSetBackend Nat).destroy_entity ⟨0, 0⟩).1 =
      .error (.EntityNotFound ⟨0, 0⟩) ∧
     (∀ tid (c : Nat),
       ((SparseSetBackend.new : SparseSetBackend Nat).add_component tid
         ⟨0, 0⟩ c).1 = .error (.EntityNotFound ⟨0, 0⟩)) ∧
     (∀ tid, ((SparseSetBackend.new : SparseSetBackend Nat).remove_component
        tid ⟨0, 0⟩).1 = .error (.EntityNotFound ⟨0, 0⟩)) ∧
     (∀ tid, (SparseSetBackend.new : SparseSetBackend Nat).get_component tid
        ⟨0, 0⟩ = none) ∧
     (∀ tid, (SparseSetBackend.new : SparseSetBackend Nat).get_component_mut
        tid ⟨0, 0⟩ = none)) :=
  ⟨Or.inl rfl, C4_dead_entity_ops SparseSetBackend.new ⟨0, 0⟩ (Or.inl rfl)⟩

/-- C9: whenever `add_component`, `remove_component` or `destroy_entity`
returns an `EntityNotFound` error, the whole backend state is unchanged;
in particular a failed `add_component` never lazily creates the storage
for the component type, because the aliveness check precedes
`get_or_create_storage`. -/
theorem C9_error_atomicity {α : Type} (b : SparseSetBackend α) (tid : Nat)
    (e : Entity) (c : α) :
    (∀ err, (b.add_component tid e c).1 = .error err →
      (b.add_component tid e c).2 = b) ∧
    (∀ err, (b.remove_component tid e).1 = .error err →
      (b.remove_component tid e).2 = b) ∧
    (∀ err, (b.destroy_entity e).1 = .error err →
      (b.destroy_entity e).2 = b) ∧
    (b.is_alive e = false →
      (b.add_component tid e c).2.storages = b.storages ∧
      lookupStorage (b.add_component tid e c).2.storages tid =
        lookupStorage b.storages tid) := by
  refine ⟨?_, ?_, ?_, ?_⟩
  · intro err herr
    rcases hb : b.is_alive e with hfalse | htrue
    · rw [SparseSetBackend.add_component_eq_err tid c hb]
    · rw [SparseSetBackend.add_component_eq_ok tid c hb] at herr
      exact absurd herr (by simp)
  · intro err herr
    rcases hb : b.is_alive e with hfalse | htrue
    · rw [SparseSetBackend.remove_component_eq_err tid hb]
    · rw [SparseSetBackend.remove_component_fst_ok tid hb] at herr
      exact absurd herr (by simp)
  · intro err herr
    by_cases hlen : b.entities.length ≤ e.id
    · rw [SparseSetBackend.destroy_entity_eq_err_len hlen]
    · by_cases hmeta : (b.entities.getD e.id ⟨0, false⟩).alive = false ∨
          (b.entities.getD e.id ⟨0, false⟩).generation ≠ e.generation
      · rw [SparseSetBackend.destroy_entity_eq_err_meta hlen hmeta]
      · rw [SparseSetBackend.destroy_entity_eq_ok hlen hmeta] at herr
        exact absurd herr (by simp)
  · intro hdead
    rw [SparseSetBackend.add_component_eq_err tid c hdead]
    exact ⟨rfl, rfl⟩

/-- Witness for C9 on the empty backend, where all three mutating
operations fail with `EntityNotFound` and leave the state unchanged. -/
theorem C9_error_atomicity_witness :
    ((SparseSetBackend.new : SparseSetBackend Nat).add_component 0 ⟨0, 0⟩ 5).1 =
      .error (.EntityNotFound ⟨0, 0⟩) ∧
    ((SparseSetBackend.new : SparseSetBackend Nat).add_component 0
      ⟨0, 0⟩ 5).2 = SparseSetBackend.new ∧
    ((SparseSetBackend.new : SparseSetBackend Nat).destroy_entity ⟨0, 0⟩).2 =
      SparseSetBackend.new ∧
    ((SparseSetBackend.new : SparseSetBackend Nat).remove_component 0
      ⟨0, 0⟩).2 = SparseSetBackend.new :=
  ⟨rfl,
   (C9_error_atomicity SparseSetBackend.new 0 ⟨0, 0⟩ 5).1
     (.EntityNotFound ⟨0, 0⟩) rfl,
   (C9_error_atomicity SparseSetBackend.new 0 ⟨0, 0⟩ 5).2.2.1
     (.EntityNotFound ⟨0, 0⟩) rfl,
   (C9_error_atomicity SparseSetBackend.new 0 ⟨0, 0⟩ 5).2.1
     (.EntityNotFound ⟨0, 0⟩) rfl⟩

/-- C3: after `destroy(e)` succeeds on the world (its storages satisfying
the structural invariant), `is_alive e` is false, every typed read
`get<T>(e)` returns `None`, no `query<T>()` result contains `e`, and a
second `destroy(e)` returns `EntityNotFound`. -/
theorem C3_destroy_post {α : Type} (w : World α) (e : Entity)
    (hInv : w.backend.StoragesInv)
    (hok : (w.destroy e).1 = .ok ()) :
    (w.destroy e).2.is_alive e = false ∧
    (∀ tid, (w.destroy e).2.get tid e = none) ∧
    (∀ tid p, p ∈ (w.destroy e).2.query tid → p.1 ≠ e) ∧
    ((w.destroy e).2.destroy e).1 = .error (.EntityNotFound e) :=
  SparseSetBackend.destroy_entity_post w.backend e hInv hok

/-- Witness for C3 on the concrete world `wEx` and its live entity
`⟨0, 7⟩`. -/
theorem C3_destroy_post_witness :
    wEx.backend.StoragesInv ∧ (wEx.destroy ⟨0, 7⟩).1 = .ok () ∧
    ((wEx.destroy ⟨0, 7⟩).2.is_alive ⟨0, 7⟩ = false ∧
     (∀ tid, (wEx.destroy ⟨0, 7⟩).2.get tid ⟨0, 7⟩ = none) ∧
     (∀ tid p, p ∈ (wEx.destroy ⟨0, 7⟩).2.query tid → p.1 ≠ ⟨0, 7⟩) ∧
     ((wEx.destroy ⟨0, 7⟩).2.destroy ⟨0, 7⟩).1 =
       .error (.EntityNotFound ⟨0, 7⟩)) :=
  ⟨storagesInv_bEx, rfl, C3_destroy_post wEx ⟨0, 7⟩ storagesInv_bEx rfl⟩

/-- C7: last-write-wins — for an alive entity, adding `v1` and then `v2`
for the same component type leaves `get_component` returning `v2`; at the
sparse-set level, an `insert` on an index whose sparse slot is already
set overwrites `components[d]` and also updates `entities[d]` to the new
`(index, generation)` pair. -/
theorem C7_last_write_wins {α : Type} (b : SparseSetBackend α) (tid : Nat)
    (e : Entity) (v1 v2 : α)
    (halive : b.is_alive e = true)
    (hInv : b.StoragesInv) :
    (((b.add_component tid e v1).2).add_component tid e v2).2.get_component
      tid e = some v2 ∧
    (∀ (s : SparseSet α) (d : Nat) (c : α), SInv s →
      s.sparse.get? e.id = some (some d) →
      (s.insert e c).components.get? d = some c ∧
      (s.insert e c).entities.get? d = some e) := by
  constructor
  · rw [SparseSetBackend.add_component_eq_ok tid v1 halive]
    have halive1 : ({ b with
        storages := insertStorage b.storages tid e v1 } :
          SparseSetBackend α).is_alive e = true := halive
    rw [SparseSetBackend.add_component_eq_ok tid v2 halive1]
    have halive2 : ({ { b with
        storages := insertStorage b.storages tid e v1 } with
        storages := insertStorage (insertStorage b.storages tid e v1) tid
          e v2 } : SparseSetBackend α).is_alive e = true := halive
    rw [SparseSetBackend.get_component_eq_alive tid halive2]
    show (lookupStorage
        (insertStorage (insertStorage b.storages tid e v1) tid e v2)
        tid).bind (fun s => s.get e) = some v2
    have hInv0 : SInv ((lookupStorage b.storages tid).getD SparseSet.new) := by
      rcases hl : lookupStorage b.storages tid with _ | s
      · exact SparseSet.sInv_new
      · exact hInv tid s hl
    have hs2 : lookupStorage
        (insertStorage (insertStorage b.storages tid e v1) tid e v2) tid =
        some (((((lookupStorage b.storages tid).getD
          SparseSet.new).insert e v1)).insert e v2) := by
      rw [lookup_insertStorage_eq, lookup_insertStorage_eq]
      rfl
    rw [hs2]
    show ((((lookupStorage b.storages tid).getD
        SparseSet.new).insert e v1).insert e v2).get e = some v2
    exact SparseSet.get_insert_self (SparseSet.sInv_insert hInv0 e v1) e v2
  · intro s d c hsInv hsp
    have hd : (SparseSet.growSparse s.sparse e.id).getD e.id none = some d := by
      have hsp2 := (SparseSet.growSparse_get?_some_iff s.sparse e.id e.id d).mpr hsp
      show ((SparseSet.growSparse s.sparse e.id).get? e.id).getD none = some d
      rw [hsp2]
      rfl
    rw [SparseSet.insert_eq_update hd]
    obtain ⟨e0, he0, -⟩ := hsInv.1 e.id d hsp
    have hdlen : d < s.entities.length := get?_lt_length he0
    have h3 := hsInv.2.2
    constructor
    · show (s.components.set d c).get? d = some c
      rw [get?_set_self _ _ _ (by omega)]
    · show (s.entities.set d e).get? d = some e
      rw [get?_set_self _ _ _ hdlen]

/-- Witness for C7 on the concrete backend `bEx`, its live entity
`⟨0, 7⟩`, and values 1 then 2. -/
theorem C7_last_write_wins_witness :
    bEx.is_alive ⟨0, 7⟩ = true ∧ bEx.StoragesInv ∧
    ((((bEx.add_component 0 ⟨0, 7⟩ 1).2).add_component 0
        ⟨0, 7⟩ 2).2.get_component 0 ⟨0, 7⟩ = some 2 ∧
     (∀ (s : SparseSet Nat) (d : Nat) (c : Nat), SInv s →
      s.sparse.get? (Entity.mk 0 7).id = some (some d) →
      (s.insert ⟨0, 7⟩ c).components.get? d = some c ∧
      (s.insert ⟨0, 7⟩ c).entities.get? d = some ⟨0, 7⟩)) :=
  ⟨by decide, storagesInv_bEx,
   C7_last_write_wins bEx 0 ⟨0, 7⟩ 1 2 (by decide) storagesInv_bEx⟩

/-- C8: `query2<A,B>` returns exactly the pairs `(e, (a, b))` such that
`(e, a)` occurs in the A storage's materialized iteration (`query<A>`)
and `get<B>(e)` returns `b`; in particular an entity holding only one of
the two component types never appears.  The implementation iterates the
A storage and filters by presence of B, which is exactly this
characterization. -/
theorem C8_query2_semantics {α : Type} (w : World α) (ta tb : Nat)
    (e : Entity) (a c2 : α) :
    (e, (a, c2)) ∈ w.query2 ta tb ↔
      ((e, a) ∈ w.query ta ∧ w.get tb e = some c2) := by
  unfold World.query2
  rw [List.mem_filterMap]
  constructor
  · rintro ⟨⟨pe, pa⟩, hp, hmap⟩
    rcases hg : w.get tb pe with _ | cc
    · rw [show w.get tb ((pe, pa) : Entity × α).1 = w.get tb pe from rfl,
        hg] at hmap
      exact Option.noConfusion hmap
    · rw [show w.get tb ((pe, pa) : Entity × α).1 = w.get tb pe from rfl,
        hg] at hmap
      have hmap2 : ((pe, (pa, cc)) : Entity × α × α) = (e, (a, c2)) := by
        simpa using hmap
      have hpe : pe = e := congrArg Prod.fst hmap2
      have hpa : pa = a := congrArg (fun q => q.2.1) hmap2
      have hcc : cc = c2 := congrArg (fun q => q.2.2) hmap2
      subst hpe
      subst hpa
      subst hcc
      exact ⟨hp, hg⟩
  · rintro ⟨hmem, hget⟩
    refine ⟨(e, a), hmem, ?_⟩
    rw [show w.get tb ((e, a) : Entity × α).1 = w.get tb e from rfl, hget]
    rfl

/-- C2 (amended): if the slot of `e1`'s index is dead and still carries
exactly `e1`'s generation — the state in which `destroy(e1)` leaves it,
while no reuse has yet wrapped the generation counter — then the next
`create_entity` that reuses that index yields `e2 ≠ e1` (the slot
generation is bumped by `wrapping_add 1`, and `(g + 1) % 2^32 ≠ g`), `e1`
stays dead, and `get_component<T>(e1)` is `None` for every component type
`T` even after `T` is added to `e2`.  (The unamended claim, quantifying
over arbitrarily many intervening reuses, fails once the 32-bit
generation wraps; see the counterexample.) -/
theorem C2_generation_discipline {α : Type} (b : SparseSetBackend α)
    (e1 : Entity)
    (hslot : b.entities.get? e1.id = some ⟨e1.generation, false⟩)
    (hidx : (b.create_entity).1.id = e1.id) :
    (b.create_entity).1 ≠ e1 ∧
    (b.create_entity).2.is_alive e1 = false ∧
    (∀ tid (c : α),
      (((b.create_entity).2.add_component tid
        (b.create_entity).1 c).2).get_component tid e1 = none) :=
  SparseSetBackend.create_after_destroy_stale b e1 hslot hidx

/-- Witness for the amended C2 at `bDead` (slot 0 dead at generation 5)
and the just-destroyed entity `⟨0, 5⟩`. -/
theorem C2_generation_discipline_witness :
    bDead.entities.get? (Entity.mk 0 5).id =
      some ⟨(Entity.mk 0 5).generation, false⟩ ∧
    (bDead.create_entity).1.id = (Entity.mk 0 5).id ∧
    ((bDead.create_entity).1 ≠ ⟨0, 5⟩ ∧
     (bDead.create_entity).2.is_alive ⟨0, 5⟩ = false ∧
     (∀ tid (c : Nat),
       (((bDead.create_entity).2.add_component tid
         (bDead.create_entity).1 c).2).get_component tid ⟨0, 5⟩ = none)) :=
  ⟨rfl, rfl, C2_generation_discipline bDead ⟨0, 5⟩ rfl rfl⟩

/-- C2 counterexample: the claim "if e1 was destroyed and a later
`create_entity` yields e2 with `e2.index = e1.index` then `e2 ≠ e1` and
`get_component<T>(e1) = None` even after adding to e2" fails once the
32-bit generation counter wraps.  Concretely: create `e1 = ⟨0, 0⟩` on a
fresh backend, destroy it, run `2^32 - 1` further create/destroy cycles
of the same slot; the next `create_entity` again reuses index 0 and
returns an entity *equal* to `e1`, and after adding component `42` to it,
`get_component(e1)` returns `some 42` instead of `None`. -/
theorem C2_generation_wrap_counterexample :
    ((SparseSetBackend.new : SparseSetBackend Nat).create_entity.1 =
      (⟨0, 0⟩ : Entity)) ∧
    (((SparseSetBackend.new : SparseSetBackend Nat).create_entity.2.destroy_entity
      ⟨0, 0⟩).1 = .ok ()) ∧
    ((cycleCreateDestroy^[U32MOD - 1]
        ((SparseSetBackend.new : SparseSetBackend Nat).create_entity.2.destroy_entity
          ⟨0, 0⟩).2).create_entity.1.id = (Entity.mk 0 0).id) ∧
    ((cycleCreateDestroy^[U32MOD - 1]
        ((SparseSetBackend.new : SparseSetBackend Nat).create_entity.2.destroy_entity
          ⟨0, 0⟩).2).create_entity.1 = (⟨0, 0⟩ : Entity)) ∧
    (((cycleCreateDestroy^[U32MOD - 1]
        ((SparseSetBackend.new : SparseSetBackend Nat).create_entity.2.destroy_entity
          ⟨0, 0⟩).2).create_entity.2.add_component 0 ⟨0, 0⟩ 42).2.get_component
            0 ⟨0, 0⟩ = some 42) := by
  have hd0 : ((SparseSetBackend.new : SparseSetBackend Nat).create_entity.2.destroy_entity
      (⟨0, 0⟩ : Entity)).2 = deadState 0 := rfl
  have hiter : cycleCreateDestroy^[U32MOD - 1] (deadState 0) =
      deadState (U32MOD - 1) := by
    rw [SparseSetBackend.cycle_iterate]
    congr 1
  have harith : ((U32MOD - 1) + 1) % U32MOD = 0 := by
    decide
  have hcr : (deadState (U32MOD - 1)).create_entity =
      ((⟨0, 0⟩ : Entity), (⟨[⟨0, true⟩], [], []⟩ : SparseSetBackend Nat)) := by
    rw [SparseSetBackend.create_entity_eq_pop
      (show (deadState (U32MOD - 1)).free_list = 0 :: [] from rfl)]
    show ((⟨0, ((U32MOD - 1) + 1) % U32MOD⟩ : Entity),
      (⟨[⟨((U32MOD - 1) + 1) % U32MOD, true⟩], [], []⟩ :
        SparseSetBackend Nat)) = _
    rw [harith]
  refine ⟨rfl, rfl, ?_, ?_, ?_⟩
  · rw [hd0, hiter, hcr]
  · rw [hd0, hiter, hcr]
  · rw [hd0, hiter, hcr]
    rfl

end GammaVk
